import Mathlib

/-!
# QOffice: the ribbon menu (OfficeMenu) and the window frame (OfficeWindow)

A shallow embedding of `src/src/Widgets/OfficeMenu.cpp`, and of the
enumerations that `src/include/QOffice/Widgets/Dialogs/OfficeWindow.hpp`
declares; the pointer-event state machine of the window frame, whose code is
not among the sources, follows the specification.

The menu owns an ordered list of header objects; a header owns panels, a panel
owns items.  The C++ code keeps the headers by pointer, and two of its
operations (`expand`, `QList::removeOne`) compare pointers.  Here a header value
carries the address of its object (`addr`), the list `m_headers` holds the
objects in list order, and a pointer argument is an address.

Widget geometry is reduced to the one quantity the menu code writes itself: the
height given to `resize` / `setFixedHeight`.  Keyboard focus (`setFocus`,
`QApplication::focusWidget`) belongs to the host framework; the widget that
holds the focus is an argument of the focus handlers.

Functions do not require their input to be well formed.  The invariant that the
header operations maintain (`OfficeMenu.WF`) is stated separately and shown to
be preserved.
-/

namespace QOffice

/-! ## Constants of OfficeMenu.cpp -/

/-- Height of the collapsed menu: `c_collapsedHeight = 30`. -/
def c_collapsedHeight : Int := 30

/-- Height of the expanded menu: `c_expandedHeight = 120`. -/
def c_expandedHeight : Int := 120

/-! ## The three-level tree -/

/-- Address of a heap object; a C++ pointer is `Option Ptr`, `none` being `nullptr`. -/
abbrev Ptr := Nat

/-- Leaf of the tree: an item with its id and label. -/
structure OfficeMenuItem where
  id : Int
  text : String
deriving DecidableEq, Repr

/-- Panel of a header: `m_items` is read by `OfficeMenu::itemById`. -/
structure OfficeMenuPanel where
  id : Int
  m_items : List OfficeMenuItem
deriving DecidableEq, Repr

/-- Header of the menu: `m_panels` is read by `OfficeMenu::itemById`; `id` and
`text` are what `setId` / `setText` store; `expanded` is the header's own
expand/collapse sub-state; `addr` is the address of the object. -/
structure OfficeMenuHeader where
  addr : Ptr
  id : Int
  text : String
  m_panels : List OfficeMenuPanel
  expanded : Bool
deriving DecidableEq, Repr

/-- State of an `OfficeMenu`: the members `m_headers`, `m_isExpanded`,
`m_isPinned`, `m_isTooltipShown`, and the height of the widget. -/
structure OfficeMenu where
  m_headers : List OfficeMenuHeader
  m_isExpanded : Bool
  m_isPinned : Bool
  m_isTooltipShown : Bool
  height : Int
deriving DecidableEq, Repr

/-- The widget that holds the keyboard focus, reduced to the two dynamic
properties `collapseOnFocusLost` reads from it. -/
structure FocusWidget where
  qoffice_menu_item : Bool
  qoffice_menu : Bool
deriving DecidableEq, Repr

/-! ## Header, panel and item operations that live outside OfficeMenu.cpp -/

namespace OfficeMenuHeader

/-- Modelled from the spec: the constructor `OfficeMenuHeader(parent)` followed
by `setText` and `setId`, as `insertHeader` calls them (OfficeMenuHeader.cpp is
not among the sources).  A new header owns no panel and is collapsed. -/
def create (addr : Ptr) (id : Int) (text : String) : OfficeMenuHeader :=
  { addr := addr, id := id, text := text, m_panels := [], expanded := false }

/-- Modelled from the spec: `OfficeMenuHeader::expand(panelLayout, flag)`
(OfficeMenuHeader.cpp is not among the sources).  The header "owns its own
expand/collapse sub-state"; expanding shows its panel row. -/
def expand (h : OfficeMenuHeader) (_isExpanded : Bool) : OfficeMenuHeader :=
  { h with expanded := true }

/-- Modelled from the spec: `OfficeMenuHeader::collapse(panelLayout, flag)`
(OfficeMenuHeader.cpp is not among the sources).  Collapsing hides the panel
row of the header. -/
def collapse (h : OfficeMenuHeader) (_isExpanded : Bool) : OfficeMenuHeader :=
  { h with expanded := false }

/-- Modelled from the spec: `OfficeMenuHeader::panelById(id)`
(OfficeMenuHeader.cpp is not among the sources): the panel of this header
addressed by `id`, not-found when the header has none. -/
def panelById (h : OfficeMenuHeader) (id : Int) : Option OfficeMenuPanel :=
  h.m_panels.find? (fun p => p.id == id)

end OfficeMenuHeader

namespace OfficeMenuPanel

/-- Modelled from the spec: `OfficeMenuPanel::itemById(id)`
(OfficeMenuPanel.cpp is not among the sources): the item of this panel
addressed by `id`, not-found when the panel has none. -/
def itemById (p : OfficeMenuPanel) (id : Int) : Option OfficeMenuItem :=
  p.m_items.find? (fun it => it.id == id)

end OfficeMenuPanel

/-! ## QList operations used by the menu -/

/-- `QList::insert(i, value)`: the value is placed before index `i`; `i <= 0`
prepends and `i >= size()` appends. -/
def qlistInsert {α : Type} (l : List α) (i : Int) (x : α) : List α :=
  l.take i.toNat ++ x :: l.drop i.toNat

/-- `QList::removeOne(ptr)` on a list of header pointers: removes the first
entry that is this pointer. -/
def removeOne (l : List OfficeMenuHeader) (p : Ptr) : List OfficeMenuHeader :=
  l.eraseP (fun h => h.addr == p)

/-- Address returned by `new OfficeMenuHeader`: an address that no header of the
list occupies. -/
def freshAddr (l : List OfficeMenuHeader) : Ptr :=
  (l.map (fun h => h.addr)).foldr max 0 + 1

/-! ## OfficeMenu -/

namespace OfficeMenu

/-- Constructor `OfficeMenu::OfficeMenu`: no header, the three flags false.
The constructor sets no height; `height0` is the height the host framework
gives the widget. -/
def create (height0 : Int) : OfficeMenu :=
  { m_headers := [], m_isExpanded := false, m_isPinned := false,
    m_isTooltipShown := false, height := height0 }

/-- `OfficeMenu::headerById`: the first header whose id is `id`. -/
def headerById (m : OfficeMenu) (id : Int) : Option OfficeMenuHeader :=
  m.m_headers.find? (fun header => header.id == id)

/-- The `else` branch of `OfficeMenu::itemById`: the three nested loops over
headers, panels and items, leaving at the first item whose id is `itemId`. -/
def dynamicSearch (m : OfficeMenu) (itemId : Int) : Option OfficeMenuItem :=
  m.m_headers.findSome? (fun header =>
    header.m_panels.findSome? (fun panel =>
      panel.m_items.find? (fun item => item.id == itemId)))

/-- `OfficeMenu::itemById`. -/
def itemById (m : OfficeMenu) (headerId panelId itemId : Int) : Option OfficeMenuItem :=
  if headerId ≠ -1 ∧ panelId ≠ -1 then
    match m.headerById headerId with
    | some header =>
      match header.panelById panelId with
      | some panel => panel.itemById itemId
      | none => none
    | none => none
  else
    m.dynamicSearch itemId

/-- `OfficeMenu::isPinned`. -/
def isPinned (m : OfficeMenu) : Bool := m.m_isPinned

/-- `OfficeMenu::insertHeader`: the returned pointer (as the new header, `none`
for `nullptr`) and the menu afterwards. -/
def insertHeader (m : OfficeMenu) (pos : Int) (id : Int) (text : String) :
    Option OfficeMenuHeader × OfficeMenu :=
  if (m.headerById id).isSome then
    (none, m)
  else
    let pos := if pos < 0 ∨ pos ≥ (m.m_headers.length : Int) then (m.m_headers.length : Int) else pos
    let header := OfficeMenuHeader.create (freshAddr m.m_headers) id text
    (some header, { m with m_headers := qlistInsert m.m_headers pos header })

/-- `OfficeMenu::appendHeader`. -/
def appendHeader (m : OfficeMenu) (id : Int) (text : String) :
    Option OfficeMenuHeader × OfficeMenu :=
  m.insertHeader (-1) id text

/-- `OfficeMenu::removeHeader`: the returned flag and the menu afterwards. -/
def removeHeader (m : OfficeMenu) (id : Int) : Bool × OfficeMenu :=
  match m.headerById id with
  | some header => (true, { m with m_headers := removeOne m.m_headers header.addr })
  | none => (false, m)

/-- `OfficeMenu::expand`: every header that is not `toExpand` is collapsed, the
height becomes `c_expandedHeight`, then `toExpand` is expanded and
`m_isExpanded` is set.  `toExpand = none` is `nullptr`.  A pointer to a header
that is not in `m_headers` names an object outside the menu state: the headers
of the menu are all collapsed and nothing in the menu is expanded. -/
def expand (m : OfficeMenu) (toExpand : Option Ptr) : OfficeMenu :=
  match toExpand with
  | none => m
  | some p =>
    let collapsed := m.m_headers.map
      (fun header => if header.addr ≠ p then header.collapse false else header)
    let expanded := collapsed.map
      (fun header => if header.addr = p then header.expand m.m_isExpanded else header)
    { m with m_headers := expanded, height := c_expandedHeight, m_isExpanded := true }

/-- `OfficeMenu::collapse`: every header is collapsed and `m_isExpanded` is
cleared.  The function itself calls neither `resize` nor `setFixedHeight`. -/
def collapse (m : OfficeMenu) : OfficeMenu :=
  { m with
    m_headers := m.m_headers.map (fun header => header.collapse m.m_isExpanded),
    m_isExpanded := false }

/-- `OfficeMenu::setPinned`. -/
def setPinned (m : OfficeMenu) (pinned : Bool) (c : Bool) : OfficeMenu :=
  let m1 := { m with m_isPinned := pinned }
  if !pinned && c then m1.collapse else m1

/-- `OfficeMenu::collapseOnFocusLost`; `focus` is `QApplication::focusWidget()`. -/
def collapseOnFocusLost (m : OfficeMenu) (focus : Option FocusWidget) : OfficeMenu :=
  let focusOverride :=
    match focus with
    | some w => w.qoffice_menu_item || w.qoffice_menu
    | none => false
  if !focusOverride && !m.m_isPinned && !m.m_isTooltipShown then m.collapse else m

/-- `OfficeMenu::focusOutEvent`. -/
def focusOutEvent (m : OfficeMenu) (focus : Option FocusWidget) : OfficeMenu :=
  m.collapseOnFocusLost focus

/-- Number of headers of the menu. -/
def count (m : OfficeMenu) : Nat := m.m_headers.length

/-- The headers of the menu that are expanded. -/
def expandedHeaders (m : OfficeMenu) : List OfficeMenuHeader :=
  m.m_headers.filter (fun header => header.expanded)

/-- Well-formed menu: no two headers share an id (the data model's "unique
integer id") and no two list entries are the same object. -/
def WF (m : OfficeMenu) : Prop :=
  (m.m_headers.map (fun header => header.id)).Nodup ∧
  (m.m_headers.map (fun header => header.addr)).Nodup

instance (m : OfficeMenu) : Decidable m.WF := by
  unfold WF; infer_instance

/-- Index at which `insertHeader` stores a new header in a list of `n`
headers: the clamp of the source, `pos < 0 || pos >= size` giving `size`. -/
def insertIndex (n : Nat) (pos : Int) : Int :=
  if pos < 0 ∨ pos ≥ (n : Int) then (n : Int) else pos

end OfficeMenu

/-! ## Sequences of insertions -/

/-- One call `insertHeader(pos, id, text)`. -/
structure InsertCall where
  pos : Int
  id : Int
  text : String
deriving DecidableEq, Repr

/-- What identifies a header in a statement about order: its id and its text. -/
def OfficeMenuHeader.key (h : OfficeMenuHeader) : Int × String := (h.id, h.text)

/-- A sequence of `insertHeader` calls run one after the other: the pointer each
call returned and the menu at the end. -/
def OfficeMenu.insertAll (m : OfficeMenu) :
    List InsertCall → List (Option OfficeMenuHeader) × OfficeMenu
  | [] => ([], m)
  | c :: cs =>
    ((m.insertHeader c.pos c.id c.text).1 ::
        (OfficeMenu.insertAll (m.insertHeader c.pos c.id c.text).2 cs).1,
      (OfficeMenu.insertAll (m.insertHeader c.pos c.id c.text).2 cs).2)

/-- The order the specification asks for, one call: the header goes to its
requested position when that position lies in `[0, count]`, and to the end when
the position is invalid. -/
def placeRequested (l : List (Int × String)) (c : InsertCall) : List (Int × String) :=
  if 0 ≤ c.pos ∧ c.pos ≤ (l.length : Int) then l.insertIdx c.pos.toNat (c.id, c.text)
  else l ++ [(c.id, c.text)]

/-- The order the specification asks for after a sequence of calls on an empty
menu. -/
def requestedOrder (calls : List InsertCall) : List (Int × String) :=
  calls.foldl placeRequested []

/-! ## Example menus -/

/-- The menu of the scenario: headers 1, 2, 3 with texts File, Home, View. -/
def demoMenu : OfficeMenu :=
  { m_headers :=
      [ { addr := 1, id := 1, text := "File", m_panels := [], expanded := false },
        { addr := 2, id := 2, text := "Home", m_panels := [], expanded := false },
        { addr := 3, id := 3, text := "View", m_panels := [], expanded := false } ],
    m_isExpanded := false, m_isPinned := false, m_isTooltipShown := false, height := 30 }

/-- The File header of `demoMenu`. -/
def demoFile : OfficeMenuHeader :=
  { addr := 1, id := 1, text := "File", m_panels := [], expanded := false }

/-- The Home header of `demoMenu`. -/
def demoHome : OfficeMenuHeader :=
  { addr := 2, id := 2, text := "Home", m_panels := [], expanded := false }

/-- Four calls with distinct ids: positions 0, 0, 5 (invalid) and 1. -/
def demoCalls : List InsertCall :=
  [ { pos := 0, id := 1, text := "File" }, { pos := 0, id := 2, text := "Home" },
    { pos := 5, id := 3, text := "View" }, { pos := 1, id := 4, text := "Edit" } ]

/-- A menu with items: header 1 owns panel 10 (items 100 and 101), header 2 owns
panel 20 (items 200 and 100) and panel 21 (item 210). -/
def demoTree : OfficeMenu :=
  { m_headers :=
      [ { addr := 1, id := 1, text := "File", expanded := false,
          m_panels := [ { id := 10, m_items := [ { id := 100, text := "New" },
                                                 { id := 101, text := "Open" } ] } ] },
        { addr := 2, id := 2, text := "Home", expanded := false,
          m_panels := [ { id := 20, m_items := [ { id := 200, text := "Paste" },
                                                 { id := 100, text := "Bold" } ] },
                        { id := 21, m_items := [ { id := 210, text := "Find" } ] } ] } ],
    m_isExpanded := false, m_isPinned := false, m_isTooltipShown := false, height := 30 }

/-- The menu after `appendHeader(1, "File")`, `expand` of the returned header
and `removeHeader(1)`, starting from a new menu of height 30. -/
def expandedThenEmptied : OfficeMenu :=
  ((((OfficeMenu.create 30).appendHeader 1 "File").2.expand
      (((OfficeMenu.create 30).appendHeader 1 "File").1.map (fun h => h.addr))).removeHeader 1).2

/-! ## Event filter and sequences of operations -/

/-- Value of `QEvent::FocusOut` in `QEvent::Type`. -/
def QEvent_FocusOut : Nat := 9

/-- `OfficeMenu::eventFilter`: `eventType` is `event->type()`, `focus` is
`QApplication::focusWidget()`.  A focus-out event runs `collapseOnFocusLost` and
is reported as handled; every other event goes to `QObject::eventFilter`, which
reports it as not handled and leaves the menu alone. -/
def OfficeMenu.eventFilter (m : OfficeMenu) (eventType : Nat) (focus : Option FocusWidget) :
    Bool × OfficeMenu :=
  if eventType = QEvent_FocusOut then (true, m.collapseOnFocusLost focus) else (false, m)

/-- One call of a state-changing operation of `OfficeMenu`, with its arguments. -/
inductive MenuOp where
  | appendHeader (id : Int) (text : String)
  | insertHeader (pos : Int) (id : Int) (text : String)
  | removeHeader (id : Int)
  | expand (toExpand : Option Ptr)
  | collapse
  | setPinned (pinned : Bool) (c : Bool)
  | focusOutEvent (focus : Option FocusWidget)
  | eventFilter (eventType : Nat) (focus : Option FocusWidget)
deriving DecidableEq, Repr

/-- The menu after one operation. -/
def OfficeMenu.step (m : OfficeMenu) : MenuOp → OfficeMenu
  | .appendHeader id text => (m.appendHeader id text).2
  | .insertHeader pos id text => (m.insertHeader pos id text).2
  | .removeHeader id => (m.removeHeader id).2
  | .expand toExpand => m.expand toExpand
  | .collapse => m.collapse
  | .setPinned pinned c => m.setPinned pinned c
  | .focusOutEvent focus => m.focusOutEvent focus
  | .eventFilter eventType focus => (m.eventFilter eventType focus).2

/-- The menu after a sequence of operations, first operation first. -/
def OfficeMenu.run (m : OfficeMenu) (ops : List MenuOp) : OfficeMenu :=
  ops.foldl OfficeMenu.step m

/-- Every header of the menu is collapsed whenever the flag `m_isExpanded` of
the menu is false. -/
def OfficeMenu.flagCoversHeaders (m : OfficeMenu) : Prop :=
  m.m_isExpanded = false → ∀ h ∈ m.m_headers, h.expanded = false

instance (m : OfficeMenu) : Decidable m.flagCoversHeaders := by
  unfold OfficeMenu.flagCoversHeaders; infer_instance

/-- The items of the tree in the order of the three nested loops of
`itemById`: headers in menu order, the panels of a header in order, the items of
a panel in order. -/
def OfficeMenu.allItems (m : OfficeMenu) : List OfficeMenuItem :=
  m.m_headers.flatMap (fun header => header.m_panels.flatMap (fun panel => panel.m_items))

/-- A menu whose second header has id -1: header 1 owns panel 5 with item 7
("Cut"), header -1 owns panel 5 with item 7 ("Copy"). -/
def sentinelTree : OfficeMenu :=
  { m_headers :=
      [ { addr := 1, id := 1, text := "Edit", expanded := false,
          m_panels := [ { id := 5, m_items := [ { id := 7, text := "Cut" } ] } ] },
        { addr := 2, id := -1, text := "More", expanded := false,
          m_panels := [ { id := 5, m_items := [ { id := 7, text := "Copy" } ] } ] } ],
    m_isExpanded := false, m_isPinned := false, m_isTooltipShown := false, height := 30 }

/-- A run that uses every operation: three headers, the second one expanded,
pinned, a focus loss, the first header removed, unpinned with collapse. -/
def demoOps : List MenuOp :=
  [ .appendHeader 1 "File", .appendHeader 2 "Home", .insertHeader 0 3 "View",
    .appendHeader 2 "Again", .expand (some 2), .setPinned true false,
    .focusOutEvent none, .removeHeader 1, .eventFilter 9 none, .setPinned false true,
    .collapse ]

/-! ## OfficeWindow: flags, window state and pointer events -/

/-- The enumeration `OfficeWindow::Flags` of OfficeWindow.hpp. -/
inductive OfficeWindow.Flags where
  | NoFlag
  | NoCloseButton
  | NoMinimizeButton
  | NoMaximizeButton
  | NoResize
  | NoMaximize
  | NoMenu
deriving DecidableEq, Repr

/-- The integer value of each `OfficeWindow::Flags` constant, as declared. -/
def OfficeWindow.Flags.value : OfficeWindow.Flags → Nat
  | .NoFlag => 0x0000
  | .NoCloseButton => 0x0001
  | .NoMinimizeButton => 0x0002
  | .NoMaximizeButton => 0x0004
  | .NoResize => 0x0008
  | .NoMaximize => 0x0010
  | .NoMenu => 0x0020

/-- Bit position of a flag; `NoFlag` has no bit and is given 0. -/
def OfficeWindow.Flags.bitIndex : OfficeWindow.Flags → Nat
  | .NoFlag => 0
  | .NoCloseButton => 0
  | .NoMinimizeButton => 1
  | .NoMaximizeButton => 2
  | .NoResize => 3
  | .NoMaximize => 4
  | .NoMenu => 5

/-- Bitwise OR of a collection of flags, the way `setFlags` expects several
flags to be given; the OR of no flag is `NoFlag`. -/
def OfficeWindow.flagsOr (S : List OfficeWindow.Flags) : Nat :=
  S.foldl (fun acc f => acc ||| f.value) OfficeWindow.Flags.NoFlag.value

/-- Query of one flag in a combination: the bitwise AND with the flag is
non-zero. -/
def OfficeWindow.containsFlag (flags : Nat) (f : OfficeWindow.Flags) : Bool :=
  flags &&& f.value != 0

/-- The enumeration `OfficeWindow::WindowState` of OfficeWindow.hpp. -/
inductive OfficeWindow.WindowState where
  | StateNone
  | StateDrag
  | StateResize
deriving DecidableEq, Repr

/-- `OfficeWindow::ResizeLeft`. -/
def OfficeWindow.ResizeLeft : Nat := 0x0001

/-- `OfficeWindow::ResizeTop`. -/
def OfficeWindow.ResizeTop : Nat := 0x0002

/-- `OfficeWindow::ResizeRight`. -/
def OfficeWindow.ResizeRight : Nat := 0x0004

/-- `OfficeWindow::ResizeBottom`. -/
def OfficeWindow.ResizeBottom : Nat := 0x0008

/-- A window rectangle: origin and size. -/
structure WindowRect where
  x : Int
  y : Int
  width : Int
  height : Int
deriving DecidableEq, Repr

/-- Where a pointer press lands on the frame. -/
inductive PressTarget where
  | titleBar
  | titleButton
  | resizeArea (direction : Nat)
  | client
deriving DecidableEq, Repr

/-- A pointer event delivered to the frame; positions are relative to the
window origin. -/
inductive PointerEvent where
  | press (target : PressTarget) (leftButton : Bool) (x : Int) (y : Int)
  | move (x : Int) (y : Int)
  | release
deriving DecidableEq, Repr

/-- State of an `OfficeWindow` frame: the members `m_stateWindow` and
`m_flagsWindow` of OfficeWindow.hpp, the window geometry with its minimum size,
and what a press records (pointer position, active edges). -/
structure OfficeWindow where
  m_stateWindow : OfficeWindow.WindowState
  m_flagsWindow : Nat
  geometry : WindowRect
  minimumWidth : Int
  minimumHeight : Int
  pressX : Int
  pressY : Int
  activeEdges : Nat
deriving DecidableEq, Repr

namespace OfficeWindow

/-- Modelled from the spec: the geometry after a pointer move in the `Resize`
state (OfficeWindow.cpp is not among the sources).  "For each active edge,
adjust the corresponding side of the window rectangle by the pointer delta,
clamped to a minimum width/height; corner regions adjust two edges." -/
def resizedGeometry (w : OfficeWindow) (x y : Int) : WindowRect :=
  let dx := x - w.pressX
  let dy := y - w.pressY
  let g := w.geometry
  let g1 :=
    if w.activeEdges &&& ResizeLeft != 0 then
      { g with x := g.x + (g.width - max w.minimumWidth (g.width - dx)),
               width := max w.minimumWidth (g.width - dx) }
    else g
  let g2 :=
    if w.activeEdges &&& ResizeRight != 0 then
      { g1 with width := max w.minimumWidth (g1.width + dx) }
    else g1
  let g3 :=
    if w.activeEdges &&& ResizeTop != 0 then
      { g2 with y := g2.y + (g2.height - max w.minimumHeight (g2.height - dy)),
                height := max w.minimumHeight (g2.height - dy) }
    else g2
  if w.activeEdges &&& ResizeBottom != 0 then
    { g3 with height := max w.minimumHeight (g3.height + dy) }
  else g3

/-- Modelled from the spec: the drag/resize state machine of the frame
(OfficeWindow.cpp is not among the sources).  A left press in the title bar,
not on a button, enters `Drag` and records the press offset; a left press in a
resize area enters `Resize` and records edges and position, unless `NoResize`
is set, which makes the resize areas inert; a move in `Drag` makes the origin
follow the pointer minus the recorded offset; a move in `Resize` adjusts the
active edges; a release returns to `None`. -/
def pointerEvent (w : OfficeWindow) : PointerEvent → OfficeWindow
  | .press .titleBar leftButton x y =>
    if leftButton then
      { w with m_stateWindow := .StateDrag, pressX := x, pressY := y }
    else w
  | .press (.resizeArea direction) leftButton x y =>
    if leftButton && !containsFlag w.m_flagsWindow .NoResize then
      { w with m_stateWindow := .StateResize, activeEdges := direction,
               pressX := x, pressY := y }
    else w
  | .press .titleButton _ _ _ => w
  | .press .client _ _ _ => w
  | .move x y =>
    match w.m_stateWindow with
    | .StateNone => w
    | .StateDrag =>
      { w with geometry := { w.geometry with x := w.geometry.x + (x - w.pressX),
                                             y := w.geometry.y + (y - w.pressY) } }
    | .StateResize =>
      { w with geometry := w.resizedGeometry x y, pressX := x, pressY := y }
  | .release => { w with m_stateWindow := .StateNone }

/-- The frame after a sequence of pointer events, first event first. -/
def pointerEvents (w : OfficeWindow) (events : List PointerEvent) : OfficeWindow :=
  events.foldl pointerEvent w

end OfficeWindow

/-- A frame at origin (100,100), 400 by 300, that cannot be resized. -/
def fixedFrame : OfficeWindow :=
  { m_stateWindow := .StateNone,
    m_flagsWindow := OfficeWindow.flagsOr [.NoResize, .NoMenu],
    geometry := { x := 100, y := 100, width := 400, height := 300 },
    minimumWidth := 50, minimumHeight := 50, pressX := 0, pressY := 0, activeEdges := 0 }

/-- Presses on resize areas and moves, then a drag by the title bar. -/
def demoPointerEvents : List PointerEvent :=
  [ .press (.resizeArea 4) true 399 150, .move 450 150, .release,
    .press (.resizeArea 8) true 200 299, .move 200 350,
    .press .titleBar true 50 5, .move 80 5, .release ]

/-! ## Lemmas on the list operations -/


theorem qlistInsert_length {α : Type} (l : List α) (i : Int) (x : α) :
    (qlistInsert l i x).length = l.length + 1 := by
  simp only [qlistInsert, List.length_append, List.length_cons, List.length_take,
    List.length_drop]
  omega

theorem qlistInsert_getElem? {α : Type} (l : List α) (i : Int) (x : α)
    (h0 : 0 ≤ i) (h1 : i ≤ (l.length : Int)) :
    (qlistInsert l i x)[i.toNat]? = some x := by
  have hk : i.toNat ≤ l.length := by omega
  have hlen : (l.take i.toNat).length = i.toNat := by
    rw [List.length_take]; omega
  unfold qlistInsert
  rw [List.getElem?_append_right (by omega), hlen]
  simp

theorem qlistInsert_eraseIdx {α : Type} (l : List α) (i : Int) (x : α)
    (h0 : 0 ≤ i) (h1 : i ≤ (l.length : Int)) :
    (qlistInsert l i x).eraseIdx i.toNat = l := by
  have hk : i.toNat ≤ l.length := by omega
  have hlen : (l.take i.toNat).length = i.toNat := by
    rw [List.length_take]; omega
  unfold qlistInsert
  rw [List.eraseIdx_append_of_length_le (by omega), hlen]
  simp

theorem qlistInsert_length_eq_append {α : Type} (l : List α) (x : α) :
    qlistInsert l (l.length : Int) x = l ++ [x] := by
  simp [qlistInsert]

theorem le_foldr_max_addr (l : List OfficeMenuHeader) :
    ∀ h ∈ l, h.addr ≤ (l.map (fun h => h.addr)).foldr max 0 := by
  induction l with
  | nil => intro h hh; cases hh
  | cons a t ih =>
    intro h hh
    simp only [List.map_cons, List.foldr_cons]
    rcases List.mem_cons.mp hh with rfl | hmem
    · exact le_max_left _ _
    · exact le_trans (ih h hmem) (le_max_right _ _)

theorem lt_freshAddr (l : List OfficeMenuHeader) :
    ∀ h ∈ l, h.addr < freshAddr l := by
  intro h hh
  exact Nat.lt_succ_of_le (le_foldr_max_addr l h hh)

theorem insertIdx_eq_take_append_drop {α : Type} (x : α) :
    ∀ (l : List α) (n : Nat), n ≤ l.length →
      l.insertIdx n x = l.take n ++ x :: l.drop n := by
  intro l
  induction l with
  | nil =>
    intro n hn
    have : n = 0 := by simpa using hn
    subst this
    simp
  | cons a t ih =>
    intro n hn
    cases n with
    | zero => simp
    | succ k =>
      have hk : k ≤ t.length := by simpa using hn
      simp [List.insertIdx_succ_cons, ih k hk]

theorem mem_qlistInsert {α : Type} (l : List α) (i : Int) (x y : α) :
    y ∈ qlistInsert l i x ↔ y = x ∨ y ∈ l := by
  unfold qlistInsert
  rw [List.mem_append, List.mem_cons]
  constructor
  · rintro (h | h | h)
    · exact Or.inr (List.mem_of_mem_take h)
    · exact Or.inl h
    · exact Or.inr (List.mem_of_mem_drop h)
  · rintro (h | h)
    · exact Or.inr (Or.inl h)
    · rw [← List.take_append_drop i.toNat l, List.mem_append] at h
      rcases h with h | h
      · exact Or.inl h
      · exact Or.inr (Or.inr h)

theorem qlistInsert_perm {α : Type} (l : List α) (i : Int) (x : α) :
    (qlistInsert l i x).Perm (x :: l) := by
  unfold qlistInsert
  have h := @List.perm_middle α x (l.take i.toNat) (l.drop i.toNat)
  rwa [List.take_append_drop] at h

theorem qlistInsert_map {α β : Type} (f : α → β) (l : List α) (i : Int) (x : α) :
    (qlistInsert l i x).map f = qlistInsert (l.map f) i (f x) := by
  simp [qlistInsert, List.map_take, List.map_drop]

theorem find_of_mem_nodup (l : List OfficeMenuHeader) (hd : OfficeMenuHeader)
    (hid : (l.map (fun h => h.id)).Nodup) (hmem : hd ∈ l) :
    l.find? (fun h => h.id == hd.id) = some hd := by
  induction l with
  | nil => cases hmem
  | cons a t ih =>
    rw [List.map_cons, List.nodup_cons] at hid
    rcases List.mem_cons.mp hmem with rfl | hm
    · simp
    · have hne : a.id ≠ hd.id := by
        intro e
        apply hid.1
        rw [e]
        exact List.mem_map_of_mem _ hm
      simp [List.find?_cons, hne, ih hid.2 hm]

theorem qlistInsert_insertIndex_eq_placeRequested (l : List (Int × String)) (c : InsertCall) :
    qlistInsert l (OfficeMenu.insertIndex l.length c.pos) (c.id, c.text) = placeRequested l c := by
  unfold placeRequested OfficeMenu.insertIndex
  by_cases hv : 0 ≤ c.pos ∧ c.pos ≤ (l.length : Int)
  · rw [if_pos hv]
    by_cases hlt : c.pos < (l.length : Int)
    · rw [if_neg (by omega), insertIdx_eq_take_append_drop _ _ _ (by omega)]
      rfl
    · have he : c.pos = (l.length : Int) := by omega
      rw [if_pos (by omega), he]
      simp [qlistInsert, List.insertIdx_length_self]
  · rw [if_neg hv, if_pos (by omega)]
    simp [qlistInsert]

theorem mem_foldl_placeRequested (calls : List InsertCall) :
    ∀ (l : List (Int × String)) (k : Int × String),
      (k ∈ l ∨ ∃ c ∈ calls, k = (c.id, c.text)) → k ∈ calls.foldl placeRequested l := by
  induction calls with
  | nil =>
    intro l k h
    rcases h with h | ⟨c, hc, _⟩
    · exact h
    · cases hc
  | cons c cs ih =>
    intro l k h
    rw [List.foldl_cons]
    apply ih
    have hstep : ∀ y, y ∈ placeRequested l c ↔ y = (c.id, c.text) ∨ y ∈ l := by
      intro y
      rw [← qlistInsert_insertIndex_eq_placeRequested]
      exact mem_qlistInsert _ _ _ _
    rcases h with h | ⟨c2, hc2, hk⟩
    · exact Or.inl ((hstep k).mpr (Or.inr h))
    · rcases List.mem_cons.mp hc2 with rfl | hcs
      · exact Or.inl ((hstep k).mpr (Or.inl hk))
      · exact Or.inr ⟨c2, hcs, hk⟩

theorem removeOne_of_find (l : List OfficeMenuHeader) (id : Int) (hd : OfficeMenuHeader)
    (hid : (l.map (fun h => h.id)).Nodup) (hadd : (l.map (fun h => h.addr)).Nodup)
    (hf : l.find? (fun h => h.id == id) = some hd) :
    removeOne l hd.addr = l.filter (fun h => h.id != id) := by
  induction l with
  | nil => simp at hf
  | cons a t ih =>
    rw [List.map_cons, List.nodup_cons] at hid hadd
    by_cases ha : a.id = id
    · have hda : hd = a := by
        simp [List.find?_cons, ha] at hf
        exact hf.symm
      subst hda
      have hrest : ∀ x ∈ t, x.id ≠ id := by
        intro x hx hxid
        apply hid.1
        rw [ha, ← hxid]
        exact List.mem_map_of_mem _ hx
      have hfil : t.filter (fun h => h.id != id) = t := by
        rw [List.filter_eq_self]
        intro x hx
        simpa using hrest x hx
      simp [removeOne, List.eraseP_cons, ha, hfil]
    · have hf2 : t.find? (fun h => h.id == id) = some hd := by
        simpa [List.find?_cons, ha] using hf
      have hmem : hd ∈ t := List.mem_of_find?_eq_some hf2
      have hne : a.addr ≠ hd.addr := by
        intro e
        apply hadd.1
        rw [e]
        exact List.mem_map_of_mem _ hmem
      have := ih hid.2 hadd.2 hf2
      simp only [removeOne] at this ⊢
      simp [List.eraseP_cons, hne, ha, this]

theorem length_filter_id_ne (l : List OfficeMenuHeader) (id : Int)
    (hid : (l.map (fun h => h.id)).Nodup) (hex : ∃ h ∈ l, h.id = id) :
    (l.filter (fun h => h.id != id)).length + 1 = l.length := by
  induction l with
  | nil => obtain ⟨h, hh, _⟩ := hex; cases hh
  | cons a t ih =>
    rw [List.map_cons, List.nodup_cons] at hid
    by_cases ha : a.id = id
    · have hfil : t.filter (fun h => h.id != id) = t := by
        rw [List.filter_eq_self]
        intro x hx
        have : x.id ≠ id := by
          intro hxid
          apply hid.1
          rw [ha, ← hxid]
          exact List.mem_map_of_mem _ hx
        simpa using this
      simp [ha, hfil]
    · have hex2 : ∃ h ∈ t, h.id = id := by
        obtain ⟨h, hh, hhid⟩ := hex
        rcases List.mem_cons.mp hh with rfl | hmem
        · exact absurd hhid ha
        · exact ⟨h, hmem, hhid⟩
      have := ih hid.2 hex2
      simp [ha, this]

theorem removeOne_qlistInsert_fresh (l : List OfficeMenuHeader) (i : Int)
    (hd : OfficeMenuHeader) (hfresh : ∀ h ∈ l, h.addr ≠ hd.addr) :
    removeOne (qlistInsert l i hd) hd.addr = l := by
  unfold removeOne qlistInsert
  have hpre : ∀ b ∈ l.take i.toNat, ¬ (fun h : OfficeMenuHeader => h.addr == hd.addr) b = true := by
    intro b hb
    simpa using hfresh b (List.mem_of_mem_take hb)
  rw [List.eraseP_append_right _ hpre]
  simp [List.eraseP_cons]

theorem find_qlistInsert_absent (l : List OfficeMenuHeader) (i : Int)
    (hd : OfficeMenuHeader) (hno : ∀ h ∈ l, h.id ≠ hd.id) :
    (qlistInsert l i hd).find? (fun h => h.id == hd.id) = some hd := by
  unfold qlistInsert
  have hpre : (l.take i.toNat).find? (fun h => h.id == hd.id) = none := by
    rw [List.find?_eq_none]
    intro x hx
    simpa using hno x (List.mem_of_mem_take hx)
  rw [List.find?_append, hpre]
  simp

namespace OfficeMenu

/-! ## Lemmas on lookup, insertion and expansion -/


theorem headerById_isSome_iff (m : OfficeMenu) (id : Int) :
    (m.headerById id).isSome = true ↔ ∃ h ∈ m.m_headers, h.id = id := by
  simp [headerById, List.find?_isSome]

theorem headerById_eq_none_iff (m : OfficeMenu) (id : Int) :
    m.headerById id = none ↔ ∀ h ∈ m.m_headers, h.id ≠ id := by
  simp [headerById, List.find?_eq_none]

theorem insertHeader_of_absent (m : OfficeMenu) (pos id : Int) (text : String)
    (hno : ∀ h ∈ m.m_headers, h.id ≠ id) :
    m.insertHeader pos id text =
      (some (OfficeMenuHeader.create (freshAddr m.m_headers) id text),
       { m with
         m_headers := qlistInsert m.m_headers (insertIndex m.m_headers.length pos)
                        (OfficeMenuHeader.create (freshAddr m.m_headers) id text) }) := by
  have hn : m.headerById id = none := (headerById_eq_none_iff m id).mpr hno
  simp [insertHeader, hn, insertIndex]

theorem insertHeader_of_present (m : OfficeMenu) (pos id : Int) (text : String)
    (hdup : ∃ h ∈ m.m_headers, h.id = id) :
    m.insertHeader pos id text = (none, m) := by
  have hs : (m.headerById id).isSome = true := (headerById_isSome_iff m id).mpr hdup
  simp [insertHeader, hs]


/-- Headers after `expand` of a non-null pointer: the same objects in the same
order, expanded exactly where the address is the pointer. -/
theorem expand_headers (m : OfficeMenu) (p : Ptr) :
    (m.expand (some p)).m_headers =
      m.m_headers.map (fun h => { h with expanded := decide (h.addr = p) }) := by
  simp only [expand, List.map_map]
  apply List.map_congr_left
  intro h _
  by_cases hp : h.addr = p <;>
    simp [hp, OfficeMenuHeader.expand, OfficeMenuHeader.collapse]

theorem expand_expand_headers (m : OfficeMenu) (p q : Ptr) :
    ((m.expand (some p)).expand (some q)).m_headers =
      m.m_headers.map (fun h => { h with expanded := decide (h.addr = q) }) := by
  rw [expand_headers, expand_headers, List.map_map]
  rfl

theorem length_filter_addr_eq_one (l : List OfficeMenuHeader) (p : Ptr)
    (hnd : (l.map (fun h => h.addr)).Nodup) (hp : p ∈ l.map (fun h => h.addr)) :
    (l.filter (fun h => decide (h.addr = p))).length = 1 := by
  have h1 := List.count_eq_one_of_mem hnd hp
  rw [List.count, List.countP_map, List.countP_eq_length_filter] at h1
  rw [← h1]
  congr 2

theorem insertAll_spec (calls : List InsertCall) :
    ∀ m : OfficeMenu, (m.m_headers.map (fun h => h.id)).Nodup →
      (calls.map (fun c => c.id)).Nodup →
      (∀ c ∈ calls, ∀ h ∈ m.m_headers, h.id ≠ c.id) →
      ((m.insertAll calls).2.m_headers.map (fun h => h.id)).Nodup ∧
      (∀ h ∈ m.m_headers, h ∈ (m.insertAll calls).2.m_headers) ∧
      (m.insertAll calls).1 = calls.map (fun c => (m.insertAll calls).2.headerById c.id) ∧
      (m.insertAll calls).2.m_headers.map OfficeMenuHeader.key
        = calls.foldl placeRequested (m.m_headers.map OfficeMenuHeader.key) := by
  induction calls with
  | nil =>
    intro m hid _ _
    exact ⟨hid, fun h hh => hh, rfl, rfl⟩
  | cons c cs ih =>
    intro m hid hcalls hdisj
    rw [List.map_cons, List.nodup_cons] at hcalls
    have hno : ∀ h ∈ m.m_headers, h.id ≠ c.id := hdisj c (List.mem_cons_self _ _)
    have hins := insertHeader_of_absent m c.pos c.id c.text hno
    generalize hm1 : (m.insertHeader c.pos c.id c.text).2 = m1 at *
    generalize hhd : OfficeMenuHeader.create (freshAddr m.m_headers) c.id c.text = hd0 at *
    have hhdid : hd0.id = c.id := by rw [← hhd]; rfl
    have hhdkey : hd0.key = (c.id, c.text) := by rw [← hhd]; rfl
    have hm1h : m1.m_headers
        = qlistInsert m.m_headers (insertIndex m.m_headers.length c.pos) hd0 := by
      rw [← hm1, hins]
    have hid1 : (m1.m_headers.map (fun h => h.id)).Nodup := by
      rw [hm1h, qlistInsert_map]
      rw [(qlistInsert_perm _ _ _).nodup_iff, List.nodup_cons]
      refine ⟨?_, hid⟩
      intro hmem
      obtain ⟨h, hh, e⟩ := List.mem_map.mp hmem
      exact hno h hh (by rw [e, hhdid])
    have hdisj1 : ∀ c2 ∈ cs, ∀ h ∈ m1.m_headers, h.id ≠ c2.id := by
      intro c2 hc2 h hh
      rw [hm1h, mem_qlistInsert] at hh
      rcases hh with rfl | hh
      · rw [hhdid]
        intro e
        apply hcalls.1
        rw [e]
        exact List.mem_map_of_mem _ hc2
      · exact hdisj c2 (List.mem_cons_of_mem _ hc2) h hh
    obtain ⟨ihnd, ihmem, ihres, ihord⟩ := ih m1 hid1 hcalls.2 hdisj1
    have hfinal : (m.insertAll (c :: cs)).2 = (m1.insertAll cs).2 := by
      rw [← hm1]; rfl
    have hres : (m.insertAll (c :: cs)).1 = some hd0 :: (m1.insertAll cs).1 := by
      rw [← hm1]
      show (m.insertHeader c.pos c.id c.text).1 :: _ = _
      rw [hins]
    have hd0mem : hd0 ∈ (m1.insertAll cs).2.m_headers := by
      apply ihmem
      rw [hm1h, mem_qlistInsert]
      exact Or.inl rfl
    refine ⟨?_, ?_, ?_, ?_⟩
    · rw [hfinal]; exact ihnd
    · intro h hh
      rw [hfinal]
      apply ihmem
      rw [hm1h, mem_qlistInsert]
      exact Or.inr hh
    · rw [hres, hfinal, List.map_cons, ← ihres]
      congr 1
      have := find_of_mem_nodup _ hd0 ihnd hd0mem
      rw [hhdid] at this
      exact this.symm
    · rw [hfinal, ihord, List.foldl_cons, hm1h, qlistInsert_map, hhdkey]
      congr 1
      have := qlistInsert_insertIndex_eq_placeRequested (m.m_headers.map OfficeMenuHeader.key) c
      rw [List.length_map] at this
      exact this

/-! ## The well-formedness invariant is kept by the header operations -/

theorem create_WF (height0 : Int) : (create height0).WF := by
  simp [WF, create]

theorem insertHeader_WF (m : OfficeMenu) (pos id : Int) (text : String) (hwf : m.WF) :
    (m.insertHeader pos id text).2.WF := by
  by_cases hdup : ∃ h ∈ m.m_headers, h.id = id
  · rw [insertHeader_of_present m pos id text hdup]
    exact hwf
  · have hno : ∀ h ∈ m.m_headers, h.id ≠ id := by
      intro h hh e
      exact hdup ⟨h, hh, e⟩
    rw [insertHeader_of_absent m pos id text hno]
    constructor
    · show ((qlistInsert _ _ _).map _).Nodup
      rw [qlistInsert_map, (qlistInsert_perm _ _ _).nodup_iff, List.nodup_cons]
      refine ⟨?_, hwf.1⟩
      intro hmem
      obtain ⟨h, hh, e⟩ := List.mem_map.mp hmem
      exact hno h hh e
    · show ((qlistInsert _ _ _).map _).Nodup
      rw [qlistInsert_map, (qlistInsert_perm _ _ _).nodup_iff, List.nodup_cons]
      refine ⟨?_, hwf.2⟩
      intro hmem
      obtain ⟨h, hh, e⟩ := List.mem_map.mp hmem
      exact Nat.ne_of_lt (lt_freshAddr m.m_headers h hh) e

theorem removeHeader_WF (m : OfficeMenu) (id : Int) (hwf : m.WF) :
    (m.removeHeader id).2.WF := by
  unfold removeHeader
  cases hf : m.headerById id with
  | none => exact hwf
  | some hd =>
    have hsub : (removeOne m.m_headers hd.addr).Sublist m.m_headers := List.eraseP_sublist _
    exact ⟨(hsub.map _).nodup hwf.1, (hsub.map _).nodup hwf.2⟩

theorem collapse_headers (m : OfficeMenu) :
    m.collapse.m_headers = m.m_headers.map (fun h => { h with expanded := false }) := rfl

theorem collapse_expandedHeaders (m : OfficeMenu) : m.collapse.expandedHeaders = [] := by
  simp [expandedHeaders, collapse_headers, List.filter_eq_nil_iff]

theorem collapse_WF (m : OfficeMenu) (hwf : m.WF) : m.collapse.WF := by
  unfold WF
  rw [collapse_headers, List.map_map, List.map_map]
  exact hwf

theorem expand_WF (m : OfficeMenu) (toExpand : Option Ptr) (hwf : m.WF) :
    (m.expand toExpand).WF := by
  cases toExpand with
  | none => exact hwf
  | some p =>
    unfold WF
    rw [expand_headers, List.map_map, List.map_map]
    exact hwf

/-! ## Lemmas on the item lookup -/

theorem dynamicSearch_eq_none_iff (m : OfficeMenu) (itemId : Int) :
    m.dynamicSearch itemId = none ↔
      ∀ h ∈ m.m_headers, ∀ p ∈ h.m_panels, ∀ it ∈ p.m_items, it.id ≠ itemId := by
  simp [dynamicSearch, List.findSome?_eq_none_iff, List.find?_eq_none]

theorem dynamicSearch_some (m : OfficeMenu) (itemId : Int) (it : OfficeMenuItem)
    (hs : m.dynamicSearch itemId = some it) :
    it.id = itemId ∧ ∃ h ∈ m.m_headers, ∃ p ∈ h.m_panels, it ∈ p.m_items := by
  obtain ⟨h, hh, hs1⟩ := List.exists_of_findSome?_eq_some hs
  obtain ⟨p, hp, hs2⟩ := List.exists_of_findSome?_eq_some hs1
  have hid : it.id = itemId := by simpa using List.find?_some hs2
  exact ⟨hid, h, hh, p, hp, List.mem_of_find?_eq_some hs2⟩

theorem itemById_of_sentinel (m : OfficeMenu) (headerId panelId itemId : Int)
    (hsent : headerId = -1 ∨ panelId = -1) :
    m.itemById headerId panelId itemId = m.dynamicSearch itemId := by
  unfold itemById
  rw [if_neg]
  intro h
  rcases hsent with e | e
  · exact h.1 e
  · exact h.2 e

/-! ## Invariants along a sequence of operations -/

theorem setPinned_eq (m : OfficeMenu) (pinned c : Bool) :
    m.setPinned pinned c =
      if pinned = false ∧ c = true then ({ m with m_isPinned := pinned } : OfficeMenu).collapse
      else { m with m_isPinned := pinned } := by
  cases pinned <;> cases c <;> rfl

theorem collapseOnFocusLost_eq_or (m : OfficeMenu) (focus : Option FocusWidget) :
    m.collapseOnFocusLost focus = m.collapse ∨ m.collapseOnFocusLost focus = m := by
  unfold collapseOnFocusLost
  dsimp only
  split
  · exact Or.inl rfl
  · exact Or.inr rfl

theorem eventFilter_eq_or (m : OfficeMenu) (eventType : Nat) (focus : Option FocusWidget) :
    (m.eventFilter eventType focus).2 = m.collapse ∨ (m.eventFilter eventType focus).2 = m := by
  unfold eventFilter
  split
  · exact collapseOnFocusLost_eq_or m focus
  · exact Or.inr rfl

theorem step_WF (m : OfficeMenu) (op : MenuOp) (hwf : m.WF) : (m.step op).WF := by
  cases op with
  | appendHeader id text => exact insertHeader_WF m (-1) id text hwf
  | insertHeader pos id text => exact insertHeader_WF m pos id text hwf
  | removeHeader id => exact removeHeader_WF m id hwf
  | expand toExpand => exact expand_WF m toExpand hwf
  | collapse => exact collapse_WF m hwf
  | setPinned pinned c =>
    show (m.setPinned pinned c).WF
    rw [setPinned_eq]
    split
    · exact collapse_WF _ hwf
    · exact hwf
  | focusOutEvent focus =>
    show (m.collapseOnFocusLost focus).WF
    rcases collapseOnFocusLost_eq_or m focus with e | e <;> rw [e]
    · exact collapse_WF m hwf
    · exact hwf
  | eventFilter eventType focus =>
    show (m.eventFilter eventType focus).2.WF
    rcases eventFilter_eq_or m eventType focus with e | e <;> rw [e]
    · exact collapse_WF m hwf
    · exact hwf

theorem run_WF (ops : List MenuOp) : ∀ m : OfficeMenu, m.WF → (m.run ops).WF := by
  induction ops with
  | nil => intro m hwf; exact hwf
  | cons op rest ih =>
    intro m hwf
    exact ih (m.step op) (step_WF m op hwf)

theorem collapse_flagCoversHeaders (m : OfficeMenu) : m.collapse.flagCoversHeaders := by
  intro _ h hh
  rw [collapse_headers] at hh
  obtain ⟨a, _, rfl⟩ := List.mem_map.mp hh
  rfl

theorem insertHeader_flagCoversHeaders (m : OfficeMenu) (pos id : Int) (text : String)
    (hinv : m.flagCoversHeaders) : (m.insertHeader pos id text).2.flagCoversHeaders := by
  by_cases hdup : ∃ h ∈ m.m_headers, h.id = id
  · rw [insertHeader_of_present m pos id text hdup]
    exact hinv
  · have hno : ∀ h ∈ m.m_headers, h.id ≠ id := by
      intro h hh e
      exact hdup ⟨h, hh, e⟩
    rw [insertHeader_of_absent m pos id text hno]
    intro hflag h hh
    have hh2 : h ∈ qlistInsert m.m_headers (insertIndex m.m_headers.length pos)
        (OfficeMenuHeader.create (freshAddr m.m_headers) id text) := hh
    rw [mem_qlistInsert] at hh2
    rcases hh2 with rfl | hold
    · rfl
    · exact hinv hflag h hold

theorem removeHeader_flagCoversHeaders (m : OfficeMenu) (id : Int)
    (hinv : m.flagCoversHeaders) : (m.removeHeader id).2.flagCoversHeaders := by
  unfold removeHeader
  cases hf : m.headerById id with
  | none => exact hinv
  | some hd =>
    intro hflag h hh
    have hsub : (removeOne m.m_headers hd.addr).Sublist m.m_headers := List.eraseP_sublist _
    exact hinv hflag h (hsub.subset hh)

theorem step_flagCoversHeaders (m : OfficeMenu) (op : MenuOp) (hinv : m.flagCoversHeaders) :
    (m.step op).flagCoversHeaders := by
  cases op with
  | appendHeader id text => exact insertHeader_flagCoversHeaders m (-1) id text hinv
  | insertHeader pos id text => exact insertHeader_flagCoversHeaders m pos id text hinv
  | removeHeader id => exact removeHeader_flagCoversHeaders m id hinv
  | expand toExpand =>
    cases toExpand with
    | none => exact hinv
    | some p =>
      intro hflag
      exact absurd hflag (by simp [step, expand])
  | collapse => exact collapse_flagCoversHeaders m
  | setPinned pinned c =>
    show (m.setPinned pinned c).flagCoversHeaders
    rw [setPinned_eq]
    split
    · exact collapse_flagCoversHeaders _
    · exact hinv
  | focusOutEvent focus =>
    show (m.collapseOnFocusLost focus).flagCoversHeaders
    rcases collapseOnFocusLost_eq_or m focus with e | e <;> rw [e]
    · exact collapse_flagCoversHeaders m
    · exact hinv
  | eventFilter eventType focus =>
    show (m.eventFilter eventType focus).2.flagCoversHeaders
    rcases eventFilter_eq_or m eventType focus with e | e <;> rw [e]
    · exact collapse_flagCoversHeaders m
    · exact hinv

theorem run_flagCoversHeaders (ops : List MenuOp) :
    ∀ m : OfficeMenu, m.flagCoversHeaders → (m.run ops).flagCoversHeaders := by
  induction ops with
  | nil => intro m hinv; exact hinv
  | cons op rest ih =>
    intro m hinv
    exact ih (m.step op) (step_flagCoversHeaders m op hinv)

theorem dynamicSearch_eq_find_allItems (m : OfficeMenu) (itemId : Int) :
    m.dynamicSearch itemId = m.allItems.find? (fun it => it.id == itemId) := by
  simp only [dynamicSearch, allItems, List.find?_flatMap]

end OfficeMenu

namespace OfficeWindow

/-! ## Lemmas on the window flags and the pointer events -/

theorem Flags.value_eq_two_pow (f : Flags) (hf : f ≠ .NoFlag) : f.value = 2 ^ f.bitIndex := by
  cases f <;> first | exact absurd rfl hf | rfl

theorem Flags.testBit_value (g f : Flags) (hf : f ≠ .NoFlag) :
    g.value.testBit f.bitIndex = decide (g = f) := by
  cases g <;> cases f <;> first | exact absurd rfl hf | decide

theorem and_two_pow_ne_zero_iff (x k : Nat) : x &&& 2 ^ k ≠ 0 ↔ x.testBit k = true := by
  rw [Nat.and_two_pow]
  cases x.testBit k <;> simp

theorem testBit_foldl_or (S : List Flags) (k : Nat) :
    ∀ acc : Nat, (S.foldl (fun a f => a ||| f.value) acc).testBit k
      = (acc.testBit k || S.any (fun f => f.value.testBit k)) := by
  induction S with
  | nil => intro acc; simp
  | cons g rest ih =>
    intro acc
    rw [List.foldl_cons, ih, Nat.testBit_or, List.any_cons, Bool.or_assoc]

theorem flagsOr_contains_iff (S : List Flags) (f : Flags) (hf : f ≠ .NoFlag) :
    flagsOr S &&& f.value ≠ 0 ↔ f ∈ S := by
  rw [Flags.value_eq_two_pow f hf, and_two_pow_ne_zero_iff, flagsOr, testBit_foldl_or]
  have h0 : Flags.NoFlag.value.testBit f.bitIndex = false := Nat.zero_testBit _
  rw [h0, Bool.false_or, List.any_eq_true]
  constructor
  · rintro ⟨g, hg, hbit⟩
    rw [Flags.testBit_value g f hf] at hbit
    have : g = f := of_decide_eq_true hbit
    rw [← this]
    exact hg
  · intro hmem
    exact ⟨f, hmem, by rw [Flags.testBit_value f f hf]; exact decide_eq_true rfl⟩

theorem pointerEvent_flags (w : OfficeWindow) (e : PointerEvent) :
    (w.pointerEvent e).m_flagsWindow = w.m_flagsWindow := by
  cases e with
  | press target leftButton x y =>
    cases target <;> simp only [pointerEvent] <;> split <;> rfl
  | move x y =>
    simp only [pointerEvent]
    split <;> rfl
  | release => rfl

theorem pointerEvent_noResize_state (w : OfficeWindow) (e : PointerEvent)
    (hflag : containsFlag w.m_flagsWindow .NoResize = true)
    (hstate : w.m_stateWindow ≠ .StateResize) :
    (w.pointerEvent e).m_stateWindow ≠ .StateResize := by
  cases e with
  | press target leftButton x y =>
    cases target with
    | titleBar =>
      simp only [pointerEvent]
      split
      · intro h; cases h
      · exact hstate
    | titleButton => exact hstate
    | resizeArea direction =>
      simp only [pointerEvent, hflag]
      simpa using hstate
    | client => exact hstate
  | move x y =>
    simp only [pointerEvent]
    split
    · exact hstate
    · rename_i hs; rw [hs]; intro h; cases h
    · rename_i hs; exact absurd hs hstate
  | release =>
    intro h
    cases h

theorem pointerEvents_noResize_state (events : List PointerEvent) :
    ∀ w : OfficeWindow, containsFlag w.m_flagsWindow .NoResize = true →
      w.m_stateWindow ≠ .StateResize →
      (w.pointerEvents events).m_stateWindow ≠ .StateResize := by
  induction events with
  | nil => intro w _ hstate; exact hstate
  | cons e rest ih =>
    intro w hflag hstate
    apply ih (w.pointerEvent e)
    · rw [pointerEvent_flags]; exact hflag
    · exact pointerEvent_noResize_state w e hflag hstate

end OfficeWindow

namespace OfficeMenu

/-! ## The claims -/

/-- Claim C1.  For two distinct headers H1 and H2 of a menu, after `expand(H1)`
followed by `expand(H2)` the menu holds the same header objects, H1 reports
collapsed, H2 reports expanded, and every expanded header of the menu is H2;
when no object occurs twice in the list exactly one header is expanded. -/
theorem expand_then_expand (m : OfficeMenu) (H1 H2 : OfficeMenuHeader)
    (h1 : H1 ∈ m.m_headers) (h2 : H2 ∈ m.m_headers) (hne : H1.addr ≠ H2.addr) :
    (((m.expand (some H1.addr)).expand (some H2.addr)).m_headers.map (fun h => h.addr)
      = m.m_headers.map (fun h => h.addr)) ∧
    (∃ h ∈ ((m.expand (some H1.addr)).expand (some H2.addr)).m_headers, h.addr = H1.addr) ∧
    (∃ h ∈ ((m.expand (some H1.addr)).expand (some H2.addr)).m_headers, h.addr = H2.addr) ∧
    (∀ h ∈ ((m.expand (some H1.addr)).expand (some H2.addr)).m_headers,
      h.addr = H1.addr → h.expanded = false) ∧
    (∀ h ∈ ((m.expand (some H1.addr)).expand (some H2.addr)).m_headers,
      h.addr = H2.addr → h.expanded = true) ∧
    (∀ h ∈ ((m.expand (some H1.addr)).expand (some H2.addr)).m_headers,
      h.expanded = true → h.addr = H2.addr) ∧
    ((m.m_headers.map (fun h => h.addr)).Nodup →
      ((m.expand (some H1.addr)).expand (some H2.addr)).expandedHeaders.length = 1) := by
  have hm2 : ((m.expand (some H1.addr)).expand (some H2.addr)).m_headers =
      m.m_headers.map (fun h => { h with expanded := decide (h.addr = H2.addr) }) :=
    expand_expand_headers m H1.addr H2.addr
  refine ⟨?_, ?_, ?_, ?_, ?_, ?_, ?_⟩
  · rw [hm2, List.map_map]; rfl
  · exact ⟨{ H1 with expanded := decide (H1.addr = H2.addr) },
      by rw [hm2]; exact List.mem_map.mpr ⟨H1, h1, rfl⟩, rfl⟩
  · exact ⟨{ H2 with expanded := decide (H2.addr = H2.addr) },
      by rw [hm2]; exact List.mem_map.mpr ⟨H2, h2, rfl⟩, rfl⟩
  · intro h hh ha
    rw [hm2, List.mem_map] at hh
    obtain ⟨a, _, rfl⟩ := hh
    simp only at ha ⊢
    simp [ha, hne]
  · intro h hh ha
    rw [hm2, List.mem_map] at hh
    obtain ⟨a, _, rfl⟩ := hh
    simp only at ha ⊢
    simp [ha]
  · intro h hh he
    rw [hm2, List.mem_map] at hh
    obtain ⟨a, _, rfl⟩ := hh
    simpa using he
  · intro hnd
    have hp : H2.addr ∈ m.m_headers.map (fun h => h.addr) := List.mem_map_of_mem _ h2
    rw [← length_filter_addr_eq_one m.m_headers H2.addr hnd hp]
    simp only [expandedHeaders, hm2, List.filter_map, List.length_map]
    rfl

/-- Witness of C1 on the File/Home/View menu: after expanding File then Home,
the headers report collapsed, expanded, collapsed. -/
theorem expand_then_expand_witness :
    demoFile ∈ demoMenu.m_headers ∧ demoHome ∈ demoMenu.m_headers ∧
    demoFile.addr ≠ demoHome.addr ∧
    (∀ h ∈ ((demoMenu.expand (some demoFile.addr)).expand (some demoHome.addr)).m_headers,
      h.expanded = true → h.addr = demoHome.addr) ∧
    ((demoMenu.expand (some demoFile.addr)).expand (some demoHome.addr)).m_headers.map
      (fun h => h.expanded) = [false, true, false] :=
  ⟨by decide, by decide, by decide,
   (expand_then_expand demoMenu demoFile demoHome (by decide) (by decide) (by decide)).2.2.2.2.2.1,
   by decide⟩

/-- Claim C2.  When a header with the id already exists, `insertHeader` and
`appendHeader` return the null indicator and leave the menu as it was: same
header sequence, same count. -/
theorem insertHeader_duplicate (m : OfficeMenu) (pos id : Int) (text : String)
    (hdup : ∃ h ∈ m.m_headers, h.id = id) :
    (m.insertHeader pos id text).1 = none ∧
    (m.insertHeader pos id text).2 = m ∧
    (m.insertHeader pos id text).2.m_headers = m.m_headers ∧
    (m.insertHeader pos id text).2.count = m.count ∧
    (m.appendHeader id text).1 = none ∧
    (m.appendHeader id text).2 = m ∧
    (m.appendHeader id text).2.m_headers = m.m_headers ∧
    (m.appendHeader id text).2.count = m.count := by
  have hi := insertHeader_of_present m pos id text hdup
  have ha : m.appendHeader id text = (none, m) := insertHeader_of_present m (-1) id text hdup
  rw [hi, ha]
  exact ⟨rfl, rfl, rfl, rfl, rfl, rfl, rfl, rfl⟩

/-- Witness of C2: inserting id 2 again into the File/Home/View menu. -/
theorem insertHeader_duplicate_witness :
    (∃ h ∈ demoMenu.m_headers, h.id = 2) ∧
    (demoMenu.insertHeader 0 2 "Start").1 = none ∧
    (demoMenu.insertHeader 0 2 "Start").2 = demoMenu :=
  have hdup : ∃ h ∈ demoMenu.m_headers, h.id = 2 := ⟨demoHome, by decide, rfl⟩
  ⟨hdup, (insertHeader_duplicate demoMenu 0 2 "Start" hdup).1,
    (insertHeader_duplicate demoMenu 0 2 "Start" hdup).2.1⟩

/-- Claim C3.  A sequence of `insertHeader` calls with pairwise distinct ids on
an empty menu: every call returns a header; at the end `headerById` of each
inserted id returns the header that the call returned, carrying the id and the
text of the call; and the headers stand in the order obtained by placing each
one at its requested position, or at the end when the position is invalid. -/
theorem insertAll_on_empty (m : OfficeMenu) (calls : List InsertCall)
    (hempty : m.m_headers = []) (hdist : (calls.map (fun c => c.id)).Nodup) :
    (m.insertAll calls).1.length = calls.length ∧
    (∀ r ∈ (m.insertAll calls).1, r.isSome = true) ∧
    (m.insertAll calls).1 = calls.map (fun c => (m.insertAll calls).2.headerById c.id) ∧
    (∀ c ∈ calls, ∃ hd : OfficeMenuHeader,
      (m.insertAll calls).2.headerById c.id = some hd ∧ hd.id = c.id ∧ hd.text = c.text) ∧
    (m.insertAll calls).2.m_headers.map OfficeMenuHeader.key = requestedOrder calls := by
  have hid : (m.m_headers.map (fun h => h.id)).Nodup := by simp [hempty]
  have hdisj : ∀ c ∈ calls, ∀ h ∈ m.m_headers, h.id ≠ c.id := by
    intro c _ h hh
    rw [hempty] at hh
    cases hh
  obtain ⟨hnd, _, hres, hord⟩ := insertAll_spec calls m hid hdist hdisj
  have hord2 : (m.insertAll calls).2.m_headers.map OfficeMenuHeader.key
      = requestedOrder calls := by
    rw [hord, hempty]
    rfl
  have hfound : ∀ c ∈ calls, ∃ hd : OfficeMenuHeader,
      (m.insertAll calls).2.headerById c.id = some hd ∧ hd.id = c.id ∧ hd.text = c.text := by
    intro c hc
    have hk : (c.id, c.text) ∈ (m.insertAll calls).2.m_headers.map OfficeMenuHeader.key := by
      rw [hord2]
      exact mem_foldl_placeRequested calls [] _ (Or.inr ⟨c, hc, rfl⟩)
    obtain ⟨hd, hmem, hkey⟩ := List.mem_map.mp hk
    have hidc : hd.id = c.id := congrArg Prod.fst hkey
    have htxt : hd.text = c.text := congrArg Prod.snd hkey
    refine ⟨hd, ?_, hidc, htxt⟩
    have := find_of_mem_nodup _ hd hnd hmem
    rw [hidc] at this
    exact this
  refine ⟨?_, ?_, hres, hfound, hord2⟩
  · rw [hres, List.length_map]
  · intro r hr
    rw [hres] at hr
    obtain ⟨c, hc, rfl⟩ := List.mem_map.mp hr
    obtain ⟨hd, hhd, _⟩ := hfound c hc
    rw [hhd]
    rfl

/-- Witness of C3: the calls (0,1,File), (0,2,Home), (5,3,View), (1,4,Edit) on a
new menu leave the ids in the order 2, 4, 1, 3. -/
theorem insertAll_on_empty_witness :
    (OfficeMenu.create 30).m_headers = [] ∧
    (demoCalls.map (fun c => c.id)).Nodup ∧
    (∀ r ∈ ((OfficeMenu.create 30).insertAll demoCalls).1, r.isSome = true) ∧
    ((OfficeMenu.create 30).insertAll demoCalls).2.m_headers.map OfficeMenuHeader.key
      = requestedOrder demoCalls ∧
    requestedOrder demoCalls = [(2, "Home"), (4, "Edit"), (1, "File"), (3, "View")] :=
  ⟨rfl, by decide,
   (insertAll_on_empty (OfficeMenu.create 30) demoCalls rfl (by decide)).2.1,
   (insertAll_on_empty (OfficeMenu.create 30) demoCalls rfl (by decide)).2.2.2.2,
   by decide⟩

/-- Claim C4.  For a menu with n headers and an id not yet present,
`insertHeader(pos, id, text)` returns a header object that was not in the menu,
carrying the id and the text; the count becomes n+1; the new header is at index
`pos` when `0 <= pos <= n` and at index n for every other `pos`; taking the new
entry out again gives the former sequence, so the former headers keep their
order; `appendHeader` puts the new header last. -/
theorem insertHeader_new (m : OfficeMenu) (pos id : Int) (text : String)
    (hno : ∀ h ∈ m.m_headers, h.id ≠ id) :
    ∃ hd : OfficeMenuHeader,
      (m.insertHeader pos id text).1 = some hd ∧
      hd.id = id ∧ hd.text = text ∧
      (∀ h ∈ m.m_headers, h.addr ≠ hd.addr) ∧
      (m.insertHeader pos id text).2.count = m.count + 1 ∧
      (0 ≤ pos ∧ pos ≤ (m.count : Int) →
        (m.insertHeader pos id text).2.m_headers[pos.toNat]? = some hd ∧
        (m.insertHeader pos id text).2.m_headers.eraseIdx pos.toNat = m.m_headers) ∧
      (¬ (0 ≤ pos ∧ pos ≤ (m.count : Int)) →
        (m.insertHeader pos id text).2.m_headers[m.count]? = some hd ∧
        (m.insertHeader pos id text).2.m_headers.eraseIdx m.count = m.m_headers) ∧
      (m.appendHeader id text).1 = some hd ∧
      (m.appendHeader id text).2.m_headers = m.m_headers ++ [hd] := by
  refine ⟨OfficeMenuHeader.create (freshAddr m.m_headers) id text, ?_⟩
  have ha : m.appendHeader id text = _ := insertHeader_of_absent m (-1) id text hno
  rw [insertHeader_of_absent m pos id text hno, ha]
  have hidx0 : ∀ p : Int, 0 ≤ insertIndex m.m_headers.length p := by
    intro p; unfold insertIndex; split <;> omega
  have hidx1 : ∀ p : Int, insertIndex m.m_headers.length p ≤ (m.m_headers.length : Int) := by
    intro p; unfold insertIndex; split <;> omega
  refine ⟨rfl, rfl, rfl, ?_, ?_, ?_, ?_, rfl, ?_⟩
  · intro h hh
    exact Nat.ne_of_lt (lt_freshAddr m.m_headers h hh)
  · simp only [count, qlistInsert_length]
  · rintro ⟨h0, h1⟩
    have hk : insertIndex m.m_headers.length pos = pos := by
      unfold insertIndex count at *
      split <;> omega
    simp only [hk]
    exact ⟨qlistInsert_getElem? _ _ _ h0 h1, qlistInsert_eraseIdx _ _ _ h0 h1⟩
  · intro hbad
    have hk : insertIndex m.m_headers.length pos = (m.m_headers.length : Int) := by
      unfold insertIndex count at *
      split <;> omega
    simp only [hk, count]
    have e : m.m_headers.length = ((m.m_headers.length : Int)).toNat := by simp
    constructor
    · conv_lhs => rw [e]
      exact qlistInsert_getElem? _ _ _ (by omega) (le_refl _)
    · conv_lhs => rw [e]
      exact qlistInsert_eraseIdx _ _ _ (by omega) (le_refl _)
  · have hk : insertIndex m.m_headers.length (-1) = (m.m_headers.length : Int) := by
      unfold insertIndex
      split <;> omega
    simp only [hk]
    exact qlistInsert_length_eq_append _ _

/-- Witness of C4: inserting id 7 at position 1 of the File/Home/View menu gives
the ids 1, 7, 2, 3. -/
theorem insertHeader_new_witness :
    (∀ h ∈ demoMenu.m_headers, h.id ≠ 7) ∧
    (∃ hd : OfficeMenuHeader, (demoMenu.insertHeader 1 7 "Edit").1 = some hd ∧
      hd.id = 7 ∧ hd.text = "Edit") ∧
    (demoMenu.insertHeader 1 7 "Edit").2.m_headers.map (fun h => h.id) = [1, 7, 2, 3] :=
  have hno : ∀ h ∈ demoMenu.m_headers, h.id ≠ 7 := by decide
  ⟨hno,
   (insertHeader_new demoMenu 1 7 "Edit" hno).elim
     (fun hd hhd => ⟨hd, hhd.1, hhd.2.1, hhd.2.2.1⟩),
   by decide⟩

/-- Claim C5.  In a well-formed menu, for an id that some header carries,
`removeHeader(id)` returns true; afterwards `headerById(id)` is not-found, the
count has dropped by one, and the headers left are exactly the headers with
another id, in their former order. -/
theorem removeHeader_present (m : OfficeMenu) (id : Int) (hwf : m.WF)
    (hex : ∃ h ∈ m.m_headers, h.id = id) :
    (m.removeHeader id).1 = true ∧
    (m.removeHeader id).2.headerById id = none ∧
    (m.removeHeader id).2.count + 1 = m.count ∧
    (m.removeHeader id).2.m_headers = m.m_headers.filter (fun h => h.id != id) ∧
    (m.removeHeader id).2.m_headers.Sublist m.m_headers := by
  have hs : (m.headerById id).isSome = true := (headerById_isSome_iff m id).mpr hex
  obtain ⟨hd, hhd⟩ := Option.isSome_iff_exists.mp hs
  have hrm : (m.removeHeader id).2.m_headers = m.m_headers.filter (fun h => h.id != id) := by
    simp only [removeHeader, hhd]
    exact removeOne_of_find m.m_headers id hd hwf.1 hwf.2 hhd
  refine ⟨by simp [removeHeader, hhd], ?_, ?_, hrm, ?_⟩
  · rw [headerById_eq_none_iff, hrm]
    intro h hh
    simpa using (List.mem_filter.mp hh).2
  · rw [count, hrm]
    exact length_filter_id_ne m.m_headers id hwf.1 hex
  · rw [hrm]
    exact List.filter_sublist _

/-- Witness of C5, the scenario of the specification: headers 1, 2, 3 appended
with texts File, Home, View; `headerById(2)` is the Home header;
`removeHeader(2)` is true; then `headerById(2)` is not-found and the ids left
are 1, 3. -/
theorem removeHeader_present_witness :
    ((((OfficeMenu.create 30).appendHeader 1 "File").2.appendHeader 2 "Home").2.appendHeader
      3 "View").2 = demoMenu ∧
    demoMenu.WF ∧ (∃ h ∈ demoMenu.m_headers, h.id = 2) ∧
    demoMenu.headerById 2 = some demoHome ∧ demoHome.text = "Home" ∧
    (demoMenu.removeHeader 2).1 = true ∧
    (demoMenu.removeHeader 2).2.headerById 2 = none ∧
    (demoMenu.removeHeader 2).2.m_headers.map (fun h => h.id) = [1, 3] :=
  have hwf : demoMenu.WF := by decide
  have hex : ∃ h ∈ demoMenu.m_headers, h.id = 2 := ⟨demoHome, by decide, rfl⟩
  ⟨by decide, hwf, hex, by decide, rfl,
   (removeHeader_present demoMenu 2 hwf hex).1,
   (removeHeader_present demoMenu 2 hwf hex).2.1,
   by decide⟩

/-- Claim C6.  When no header of the menu carries the id, `removeHeader`
returns false and the whole menu state is unchanged. -/
theorem removeHeader_absent (m : OfficeMenu) (id : Int)
    (hno : ∀ h ∈ m.m_headers, h.id ≠ id) :
    (m.removeHeader id).1 = false ∧ (m.removeHeader id).2 = m := by
  have hn : m.headerById id = none := (headerById_eq_none_iff m id).mpr hno
  simp [removeHeader, hn]

/-- Witness of C6: removing id 9 from the File/Home/View menu. -/
theorem removeHeader_absent_witness :
    (∀ h ∈ demoMenu.m_headers, h.id ≠ 9) ∧
    (demoMenu.removeHeader 9).1 = false ∧ (demoMenu.removeHeader 9).2 = demoMenu :=
  have hno : ∀ h ∈ demoMenu.m_headers, h.id ≠ 9 := by decide
  ⟨hno, removeHeader_absent demoMenu 9 hno⟩

/-- Claim C7, the state in which it fails.  A header is appended to a new menu
and expanded, which sets the height to 120; the header is removed; `collapse()`
then finds no header to collapse and only clears `m_isExpanded`: no header is
expanded, but the height is still 120 and not the collapsed height 30. -/
theorem collapse_leaves_height :
    expandedThenEmptied.m_headers = [] ∧
    expandedThenEmptied.m_isExpanded = true ∧
    expandedThenEmptied.height = 120 ∧
    expandedThenEmptied.collapse.expandedHeaders = [] ∧
    expandedThenEmptied.collapse.m_isExpanded = false ∧
    expandedThenEmptied.collapse.height = 120 ∧
    expandedThenEmptied.collapse.height ≠ c_collapsedHeight := by
  decide

/-- Claim C8.  `collapseOnFocusLost` performs `collapse()` when the menu is not
pinned, no tooltip is shown, and the focused widget is absent or carries neither
the `qoffice_menu` nor the `qoffice_menu_item` tag; in every other case the menu
state is unchanged.  `focusOutEvent` does the same. -/
theorem collapseOnFocusLost_cases (m : OfficeMenu) (focus : Option FocusWidget) :
    ((m.m_isPinned = false ∧ m.m_isTooltipShown = false ∧
        (focus = none ∨ ∃ w, focus = some w ∧ w.qoffice_menu = false ∧
          w.qoffice_menu_item = false)) →
      m.collapseOnFocusLost focus = m.collapse) ∧
    (¬ (m.m_isPinned = false ∧ m.m_isTooltipShown = false ∧
        (focus = none ∨ ∃ w, focus = some w ∧ w.qoffice_menu = false ∧
          w.qoffice_menu_item = false)) →
      m.collapseOnFocusLost focus = m) ∧
    m.focusOutEvent focus = m.collapseOnFocusLost focus := by
  refine ⟨?_, ?_, rfl⟩
  · rintro ⟨hp, ht, hf⟩
    rcases hf with rfl | ⟨w, rfl, hw1, hw2⟩
    · simp [collapseOnFocusLost, hp, ht]
    · simp [collapseOnFocusLost, hp, ht, hw1, hw2]
  · intro hn
    cases focus with
    | none =>
      have : ¬ (m.m_isPinned = false ∧ m.m_isTooltipShown = false) := by
        intro h
        exact hn ⟨h.1, h.2, Or.inl rfl⟩
      cases hp : m.m_isPinned <;> cases ht : m.m_isTooltipShown <;>
        simp_all [collapseOnFocusLost]
    | some w =>
      have : ¬ (m.m_isPinned = false ∧ m.m_isTooltipShown = false ∧
          w.qoffice_menu = false ∧ w.qoffice_menu_item = false) := by
        intro h
        exact hn ⟨h.1, h.2.1, Or.inr ⟨w, rfl, h.2.2⟩⟩
      cases hp : m.m_isPinned <;> cases ht : m.m_isTooltipShown <;>
        cases h1 : w.qoffice_menu <;> cases h2 : w.qoffice_menu_item <;>
        simp_all [collapseOnFocusLost]

/-- Witness of C8 on the File/Home/View menu with the File header expanded: a
focused widget without tag collapses the menu, a focused menu item does not. -/
theorem collapseOnFocusLost_cases_witness :
    (demoMenu.expand (some 1)).collapseOnFocusLost
        (some { qoffice_menu_item := false, qoffice_menu := false })
      = (demoMenu.expand (some 1)).collapse ∧
    (demoMenu.expand (some 1)).collapseOnFocusLost
        (some { qoffice_menu_item := true, qoffice_menu := false })
      = demoMenu.expand (some 1) ∧
    (demoMenu.expand (some 1)).collapse ≠ demoMenu.expand (some 1) :=
  ⟨(collapseOnFocusLost_cases (demoMenu.expand (some 1))
      (some { qoffice_menu_item := false, qoffice_menu := false })).1
      ⟨rfl, rfl, Or.inr ⟨_, rfl, rfl, rfl⟩⟩,
   (collapseOnFocusLost_cases (demoMenu.expand (some 1))
      (some { qoffice_menu_item := true, qoffice_menu := false })).2.1
      (by decide),
   by decide⟩

/-- Claim C9.  When `headerId` or `panelId` is -1 (in particular for
`itemById(-1, -1, itemId)`), the lookup does not depend on the two ids; it
returns an item of the tree whose id is `itemId` whenever some panel of some
header holds such an item, and it returns not-found exactly when no item of the
whole tree has that id. -/
theorem itemById_sentinel (m : OfficeMenu) (headerId panelId itemId : Int)
    (hsent : headerId = -1 ∨ panelId = -1) :
    m.itemById headerId panelId itemId = m.itemById (-1) (-1) itemId ∧
    ((∃ h ∈ m.m_headers, ∃ p ∈ h.m_panels, ∃ it ∈ p.m_items, it.id = itemId) →
      ∃ it : OfficeMenuItem, m.itemById headerId panelId itemId = some it ∧ it.id = itemId ∧
        ∃ h ∈ m.m_headers, ∃ p ∈ h.m_panels, it ∈ p.m_items) ∧
    (m.itemById headerId panelId itemId = none ↔
      ¬ ∃ h ∈ m.m_headers, ∃ p ∈ h.m_panels, ∃ it ∈ p.m_items, it.id = itemId) := by
  rw [itemById_of_sentinel m headerId panelId itemId hsent,
    itemById_of_sentinel m (-1) (-1) itemId (Or.inl rfl)]
  refine ⟨rfl, ?_, ?_⟩
  · rintro ⟨h, hh, p, hp, it, hit, hid⟩
    cases hs : m.dynamicSearch itemId with
    | none =>
      exact absurd hid ((dynamicSearch_eq_none_iff m itemId).mp hs h hh p hp it hit)
    | some found =>
      obtain ⟨hfid, hftree⟩ := dynamicSearch_some m itemId found hs
      exact ⟨found, rfl, hfid, hftree⟩
  · rw [dynamicSearch_eq_none_iff]
    constructor
    · rintro hall ⟨h, hh, p, hp, it, hit, hid⟩
      exact hall h hh p hp it hit hid
    · intro hne h hh p hp it hit hid
      exact hne ⟨h, hh, p, hp, it, hit, hid⟩

/-- Witness of C9 on `demoTree`: item 210 lives under header 2, panel 21, and is
found with header id -1 and any panel id; id 999 is nowhere and is not found. -/
theorem itemById_sentinel_witness :
    demoTree.itemById (-1) 10 210 = demoTree.itemById (-1) (-1) 210 ∧
    demoTree.itemById (-1) (-1) 210 = some { id := 210, text := "Find" } ∧
    demoTree.itemById 1 (-1) 210 = some { id := 210, text := "Find" } ∧
    demoTree.itemById (-1) (-1) 999 = none :=
  ⟨(itemById_sentinel demoTree (-1) 10 210 (Or.inl rfl)).1, by decide, by decide, by decide⟩

/-- Claim C10.  With `h` and `p` both different from -1, `itemById(h, p, itemId)`
returns not-found when no header has id `h`, when the header `h` has no panel
`p`, and when panel `p` of header `h` holds no item with id `itemId`, wherever
else in the tree such an item may be; an item it returns has id `itemId` and
lives in the panel that `panelById(p)` gives for the header that `headerById(h)`
gives. -/
theorem itemById_direct (m : OfficeMenu) (h p itemId : Int) (hh : h ≠ -1) (hp : p ≠ -1) :
    ((∀ hd ∈ m.m_headers, hd.id ≠ h) → m.itemById h p itemId = none) ∧
    ((∀ hd ∈ m.m_headers, hd.id = h → ∀ pn ∈ hd.m_panels, pn.id ≠ p) →
      m.itemById h p itemId = none) ∧
    ((∀ hd ∈ m.m_headers, hd.id = h → ∀ pn ∈ hd.m_panels, pn.id = p →
        ∀ it ∈ pn.m_items, it.id ≠ itemId) →
      m.itemById h p itemId = none) ∧
    (∀ it : OfficeMenuItem, m.itemById h p itemId = some it →
      it.id = itemId ∧
      ∃ hd pn, m.headerById h = some hd ∧ hd.panelById p = some pn ∧
        hd ∈ m.m_headers ∧ hd.id = h ∧ pn ∈ hd.m_panels ∧ pn.id = p ∧ it ∈ pn.m_items) := by
  have hpos : ∀ it : OfficeMenuItem, m.itemById h p itemId = some it →
      it.id = itemId ∧
      ∃ hd pn, m.headerById h = some hd ∧ hd.panelById p = some pn ∧
        hd ∈ m.m_headers ∧ hd.id = h ∧ pn ∈ hd.m_panels ∧ pn.id = p ∧ it ∈ pn.m_items := by
    intro it hs
    unfold itemById at hs
    rw [if_pos ⟨hh, hp⟩] at hs
    cases hhd : m.headerById h with
    | none => rw [hhd] at hs; cases hs
    | some hd =>
      rw [hhd] at hs
      dsimp only at hs
      cases hpn : hd.panelById p with
      | none => rw [hpn] at hs; cases hs
      | some pn =>
        rw [hpn] at hs
        dsimp only at hs
        have hs2 : pn.m_items.find? (fun i => i.id == itemId) = some it := hs
        have hhd2 : m.m_headers.find? (fun x => x.id == h) = some hd := hhd
        have hpn2 : hd.m_panels.find? (fun x => x.id == p) = some pn := hpn
        refine ⟨by simpa using List.find?_some hs2, hd, pn, rfl, hpn,
          List.mem_of_find?_eq_some hhd2, by simpa using List.find?_some hhd2,
          List.mem_of_find?_eq_some hpn2, by simpa using List.find?_some hpn2,
          List.mem_of_find?_eq_some hs2⟩
  have hnone : (∀ it : OfficeMenuItem, m.itemById h p itemId ≠ some it) →
      m.itemById h p itemId = none := by
    intro hall
    cases hs : m.itemById h p itemId with
    | none => rfl
    | some it => exact absurd hs (hall it)
  refine ⟨?_, ?_, ?_, hpos⟩
  · intro hno
    apply hnone
    intro it hs
    obtain ⟨_, hd, pn, _, _, hmem, hid, _⟩ := hpos it hs
    exact hno hd hmem hid
  · intro hno
    apply hnone
    intro it hs
    obtain ⟨_, hd, pn, _, _, hmem, hid, hpm, hpid, _⟩ := hpos it hs
    exact hno hd hmem hid pn hpm hpid
  · intro hno
    apply hnone
    intro it hs
    obtain ⟨hiid, hd, pn, _, _, hmem, hid, hpm, hpid, him⟩ := hpos it hs
    exact hno hd hmem hid pn hpm hpid it him hiid

/-- Witness of C10 on `demoTree`: item 200 lives under header 2, panel 20; asked
for under header 1, panel 10 it is not found, and neither under the missing
header 7 nor under the missing panel 11 of header 1; under header 2, panel 20 it
is found. -/
theorem itemById_direct_witness :
    (1 : Int) ≠ -1 ∧ (10 : Int) ≠ -1 ∧
    (∀ hd ∈ demoTree.m_headers, hd.id = 1 → ∀ pn ∈ hd.m_panels, pn.id = 10 →
        ∀ it ∈ pn.m_items, it.id ≠ 200) ∧
    demoTree.itemById 1 10 200 = none ∧
    demoTree.itemById 7 10 200 = none ∧
    demoTree.itemById 1 11 200 = none ∧
    demoTree.itemById (-1) (-1) 200 = some { id := 200, text := "Paste" } ∧
    demoTree.itemById 2 20 200 = some { id := 200, text := "Paste" } :=
  have hno : ∀ hd ∈ demoTree.m_headers, hd.id = 1 → ∀ pn ∈ hd.m_panels, pn.id = 10 →
      ∀ it ∈ pn.m_items, it.id ≠ 200 := by decide
  ⟨by decide, by decide, hno,
   (itemById_direct demoTree 1 10 200 (by decide) (by decide)).2.2.1 hno,
   by decide, by decide, by decide, by decide⟩

/-- Claim C11.  In every menu state reached from a new, empty menu by a sequence
of operations (in particular by `appendHeader`, `insertHeader` and
`removeHeader` calls with arbitrary arguments), the ids of the headers are
pairwise distinct. -/
theorem header_ids_distinct (height0 : Int) (ops : List MenuOp) :
    (((OfficeMenu.create height0).run ops).m_headers.map (fun h => h.id)).Nodup ∧
    ((OfficeMenu.create height0).run ops).m_headers.Pairwise (fun a b => a.id ≠ b.id) := by
  have hwf := run_WF ops (OfficeMenu.create height0) (create_WF height0)
  exact ⟨hwf.1, List.pairwise_map.mp hwf.1⟩

/-- Claim C12.  For a non-null header pointer, `expand` leaves the menu with
height 120, the expanded height, and with `m_isExpanded` set, whatever they
were before; the pinned flag is unchanged and the header sequence holds the same
header objects with their ids, texts and panels in the same order. -/
theorem expand_height_and_flag (m : OfficeMenu) (p : Ptr) :
    (m.expand (some p)).height = 120 ∧
    (m.expand (some p)).height = c_expandedHeight ∧
    (m.expand (some p)).m_isExpanded = true ∧
    (m.expand (some p)).m_isPinned = m.m_isPinned ∧
    (m.expand (some p)).m_headers.map (fun h => (h.addr, h.id, h.text, h.m_panels))
      = m.m_headers.map (fun h => (h.addr, h.id, h.text, h.m_panels)) := by
  refine ⟨rfl, rfl, rfl, rfl, ?_⟩
  rw [expand_headers, List.map_map]
  rfl

/-- Claim C13.  After `setPinned(pinned, c)` the menu reports `pinned`; when
`pinned` is false and `c` is true the call collapses the menu, so that no header
is expanded and `m_isExpanded` is false, shown tooltip or not; in every other
case the headers and `m_isExpanded` are as before. -/
theorem setPinned_cases (m : OfficeMenu) (pinned c : Bool) :
    (m.setPinned pinned c).isPinned = pinned ∧
    ((pinned = false ∧ c = true) →
      m.setPinned pinned c = ({ m with m_isPinned := pinned } : OfficeMenu).collapse ∧
      (m.setPinned pinned c).expandedHeaders = [] ∧
      (m.setPinned pinned c).m_isExpanded = false) ∧
    (¬ (pinned = false ∧ c = true) →
      (m.setPinned pinned c).m_headers = m.m_headers ∧
      (m.setPinned pinned c).m_isExpanded = m.m_isExpanded) := by
  rw [setPinned_eq]
  by_cases hc : pinned = false ∧ c = true
  · rw [if_pos hc]
    refine ⟨rfl, fun _ => ⟨rfl, collapse_expandedHeaders _, rfl⟩, fun hn => absurd hc hn⟩
  · rw [if_neg hc]
    exact ⟨rfl, fun h => absurd h hc, fun _ => ⟨rfl, rfl⟩⟩

/-- Witness of C13 on the File/Home/View menu with the Home header expanded and
a tooltip shown: unpinning with `c` true collapses it, pinning does not. -/
theorem setPinned_cases_witness :
    (({ demoMenu.expand (some 2) with m_isTooltipShown := true } : OfficeMenu).setPinned
      false true).expandedHeaders = [] ∧
    (({ demoMenu.expand (some 2) with m_isTooltipShown := true } : OfficeMenu).setPinned
      true true).m_headers = (demoMenu.expand (some 2)).m_headers ∧
    (demoMenu.expand (some 2)).expandedHeaders ≠ [] :=
  ⟨((setPinned_cases ({ demoMenu.expand (some 2) with m_isTooltipShown := true } : OfficeMenu)
      false true).2.1 ⟨rfl, rfl⟩).2.1,
   ((setPinned_cases ({ demoMenu.expand (some 2) with m_isTooltipShown := true } : OfficeMenu)
      true true).2.2 (by decide)).1,
   by decide⟩

/-- Claim C14.  A focus-out event handled by `eventFilter` leaves the menu in
the state in which `focusOutEvent` leaves it, both being `collapseOnFocusLost`;
for every event that is not a focus-out `eventFilter` leaves the menu state
unchanged. -/
theorem eventFilter_focusOut (m : OfficeMenu) (focus : Option FocusWidget) :
    (m.eventFilter QEvent_FocusOut focus).2 = m.focusOutEvent focus ∧
    (m.eventFilter QEvent_FocusOut focus).2 = m.collapseOnFocusLost focus ∧
    m.focusOutEvent focus = m.collapseOnFocusLost focus ∧
    (m.eventFilter QEvent_FocusOut focus).1 = true ∧
    (∀ eventType : Nat, eventType ≠ QEvent_FocusOut →
      (m.eventFilter eventType focus).2 = m ∧ (m.eventFilter eventType focus).1 = false) := by
  refine ⟨?_, ?_, rfl, ?_, ?_⟩
  · simp [eventFilter, focusOutEvent]
  · simp [eventFilter]
  · simp [eventFilter]
  · intro eventType hne
    simp [eventFilter, hne]

/-- Witness of C14 on the File/Home/View menu with the Home header expanded: a
focus-out through the filter collapses it as `focusOutEvent` does, a focus-in
(type 8) does nothing. -/
theorem eventFilter_focusOut_witness :
    ((demoMenu.expand (some 2)).eventFilter QEvent_FocusOut none).2
      = (demoMenu.expand (some 2)).focusOutEvent none ∧
    ((demoMenu.expand (some 2)).focusOutEvent none).expandedHeaders = [] ∧
    ((demoMenu.expand (some 2)).eventFilter 8 none).2 = demoMenu.expand (some 2) :=
  ⟨(eventFilter_focusOut (demoMenu.expand (some 2)) none).1, by decide,
   ((eventFilter_focusOut (demoMenu.expand (some 2)) none).2.2.2.2 8 (by decide)).1⟩

end OfficeMenu

namespace OfficeWindow

/-- Claim C15.  For a frame whose flags contain `NoResize` and that is not in
the `Resize` state, no sequence of pointer events brings it into `Resize`, and a
press inside any resize region leaves the frame as it is; for every frame in the
state `None`, a pointer move leaves the window geometry, and the whole frame,
unchanged. -/
theorem noResize_never_resizes (w : OfficeWindow) (events : List PointerEvent)
    (hflag : containsFlag w.m_flagsWindow .NoResize = true)
    (hstate : w.m_stateWindow ≠ .StateResize) :
    (w.pointerEvents events).m_stateWindow ≠ .StateResize ∧
    (∀ (direction : Nat) (leftButton : Bool) (x y : Int),
      w.pointerEvent (.press (.resizeArea direction) leftButton x y) = w) ∧
    (∀ (v : OfficeWindow) (x y : Int), v.m_stateWindow = .StateNone →
      (v.pointerEvent (.move x y)).geometry = v.geometry ∧ v.pointerEvent (.move x y) = v) := by
  refine ⟨pointerEvents_noResize_state events w hflag hstate, ?_, ?_⟩
  · intro direction leftButton x y
    simp [pointerEvent, hflag]
  · intro v x y hnone
    have : v.pointerEvent (.move x y) = v := by
      simp only [pointerEvent, hnone]
    rw [this]
    exact ⟨rfl, rfl⟩

/-- Witness of C15 on a frame with `NoResize` and `NoMenu`: presses on resize
areas and moves leave it at (100,100), 400 by 300; the drag that follows moves
the origin to (130,100) and the release ends in `None`. -/
theorem noResize_never_resizes_witness :
    containsFlag fixedFrame.m_flagsWindow .NoResize = true ∧
    fixedFrame.m_stateWindow ≠ .StateResize ∧
    (fixedFrame.pointerEvents demoPointerEvents).m_stateWindow ≠ .StateResize ∧
    (fixedFrame.pointerEvents (demoPointerEvents.take 5)).geometry = fixedFrame.geometry ∧
    (fixedFrame.pointerEvents demoPointerEvents).geometry
      = { x := 130, y := 100, width := 400, height := 300 } ∧
    (({ fixedFrame with m_flagsWindow := 0 } : OfficeWindow).pointerEvents
      (demoPointerEvents.take 1)).m_stateWindow = .StateResize :=
  ⟨by decide, by decide,
   (noResize_never_resizes fixedFrame demoPointerEvents (by decide) (by decide)).1,
   by decide, by decide, by decide⟩

/-- Claim C16.  The six non-zero `Flags` constants are single bits and pairwise
disjoint; for every collection S of flags, the bitwise OR of S contains a given
non-zero flag (the AND with it is non-zero) exactly when the flag is in S; and
`NoFlag`, the value 0, is the OR of the empty collection. -/
theorem flags_bitmask :
    (∀ f : Flags, f ≠ .NoFlag → ∃ k : Nat, f.value = 2 ^ k) ∧
    (∀ f g : Flags, f ≠ .NoFlag → g ≠ .NoFlag → f ≠ g → f.value &&& g.value = 0) ∧
    (∀ (S : List Flags) (f : Flags), f ≠ .NoFlag →
      (flagsOr S &&& f.value ≠ 0 ↔ f ∈ S)) ∧
    (∀ (S : List Flags) (f : Flags), f ≠ .NoFlag →
      (containsFlag (flagsOr S) f = true ↔ f ∈ S)) ∧
    flagsOr [] = Flags.NoFlag.value ∧ Flags.NoFlag.value = 0 := by
  refine ⟨?_, ?_, ?_, ?_, rfl, rfl⟩
  · intro f hf
    exact ⟨f.bitIndex, Flags.value_eq_two_pow f hf⟩
  · intro f g hf hg hne
    cases f <;> cases g <;>
      first | exact absurd rfl hf | exact absurd rfl hg | exact absurd rfl hne | decide
  · intro S f hf
    exact flagsOr_contains_iff S f hf
  · intro S f hf
    rw [← flagsOr_contains_iff S f hf]
    simp [containsFlag]

/-- Witness of C16: in the OR of `NoResize` and `NoMenu`, value 40, those two
flags are found and `NoCloseButton` is not. -/
theorem flags_bitmask_witness :
    flagsOr [.NoResize, .NoMenu] = 40 ∧
    (flagsOr [.NoResize, .NoMenu] &&& Flags.NoResize.value ≠ 0 ↔
      Flags.NoResize ∈ [Flags.NoResize, Flags.NoMenu]) ∧
    flagsOr [.NoResize, .NoMenu] &&& Flags.NoMenu.value ≠ 0 ∧
    flagsOr [.NoResize, .NoMenu] &&& Flags.NoCloseButton.value = 0 :=
  ⟨by decide, flags_bitmask.2.2.1 [.NoResize, .NoMenu] .NoResize (by decide), by decide,
    by decide⟩

end OfficeWindow

namespace OfficeMenu

/-- Claim C17.  In every menu state reached from a new menu by `appendHeader`,
`insertHeader`, `removeHeader`, `expand`, `collapse`, `setPinned` and the two
focus-loss handlers, if `m_isExpanded` is false then no header of the menu is
expanded. -/
theorem flag_false_no_header_expanded (height0 : Int) (ops : List MenuOp) :
    ((OfficeMenu.create height0).run ops).m_isExpanded = false →
      (∀ h ∈ ((OfficeMenu.create height0).run ops).m_headers, h.expanded = false) ∧
      ((OfficeMenu.create height0).run ops).expandedHeaders = [] := by
  intro hflag
  have hinv : (OfficeMenu.create height0).flagCoversHeaders := by
    intro _ h hh
    cases hh
  have hall := run_flagCoversHeaders ops (OfficeMenu.create height0) hinv hflag
  refine ⟨hall, ?_⟩
  rw [expandedHeaders, List.filter_eq_nil_iff]
  intro h hh
  simp [hall h hh]

/-- Witness of C17 on a run that uses every operation and ends collapsed. -/
theorem flag_false_no_header_expanded_witness :
    ((OfficeMenu.create 30).run demoOps).m_isExpanded = false ∧
    ((OfficeMenu.create 30).run demoOps).m_headers.map (fun h => h.id) = [3, 2] ∧
    ((OfficeMenu.create 30).run demoOps).expandedHeaders = [] :=
  ⟨by decide, by decide, (flag_false_no_header_expanded 30 demoOps (by decide)).2⟩

/-- Claim C18.  For an id not present in the menu, `insertHeader(pos, id, text)`
followed by `removeHeader(id)` returns true and gives back the menu as it was:
the same headers in the same order (pairwise distinct ids are not even
needed). -/
theorem insert_then_remove (m : OfficeMenu) (pos id : Int) (text : String)
    (hno : ∀ h ∈ m.m_headers, h.id ≠ id) :
    ((m.insertHeader pos id text).2.removeHeader id).1 = true ∧
    ((m.insertHeader pos id text).2.removeHeader id).2.m_headers = m.m_headers ∧
    ((m.insertHeader pos id text).2.removeHeader id).2 = m := by
  rw [insertHeader_of_absent m pos id text hno]
  generalize hhd : OfficeMenuHeader.create (freshAddr m.m_headers) id text = hd
  have hid : hd.id = id := by rw [← hhd]; rfl
  have haddr : hd.addr = freshAddr m.m_headers := by rw [← hhd]; rfl
  have hfind : (qlistInsert m.m_headers (insertIndex m.m_headers.length pos) hd).find?
      (fun h => h.id == id) = some hd := by
    have := find_qlistInsert_absent m.m_headers (insertIndex m.m_headers.length pos) hd
      (by rw [hid]; exact hno)
    rw [hid] at this
    exact this
  have hfresh : ∀ h ∈ m.m_headers, h.addr ≠ hd.addr := by
    intro h hh
    rw [haddr]
    exact Nat.ne_of_lt (lt_freshAddr m.m_headers h hh)
  have hrm := removeOne_qlistInsert_fresh m.m_headers (insertIndex m.m_headers.length pos) hd hfresh
  have hres : OfficeMenu.removeHeader
      { m with m_headers := qlistInsert m.m_headers (insertIndex m.m_headers.length pos) hd } id
      = (true, m) := by
    simp only [removeHeader, headerById, hfind, hrm]
  rw [hres]
  exact ⟨rfl, rfl, rfl⟩

/-- Witness of C18: header 7 inserted at position 1 of the File/Home/View menu
and removed again. -/
theorem insert_then_remove_witness :
    (∀ h ∈ demoMenu.m_headers, h.id ≠ 7) ∧
    (demoMenu.insertHeader 1 7 "Edit").2.m_headers.map (fun h => h.id) = [1, 7, 2, 3] ∧
    ((demoMenu.insertHeader 1 7 "Edit").2.removeHeader 7).1 = true ∧
    ((demoMenu.insertHeader 1 7 "Edit").2.removeHeader 7).2 = demoMenu :=
  have hno : ∀ h ∈ demoMenu.m_headers, h.id ≠ 7 := by decide
  ⟨hno, by decide, (insert_then_remove demoMenu 1 7 "Edit" hno).1,
    (insert_then_remove demoMenu 1 7 "Edit" hno).2.2⟩

/-- Claim C19.  With `headerId = -1` or `panelId = -1`, `itemById` returns the
first item with id `itemId` in the traversal that visits headers in menu order,
the panels of a header in order and the items of a panel in order: the items
before it in that traversal all have another id. -/
theorem itemById_first_in_order (m : OfficeMenu) (headerId panelId itemId : Int)
    (hsent : headerId = -1 ∨ panelId = -1) :
    m.itemById headerId panelId itemId = m.allItems.find? (fun it => it.id == itemId) ∧
    (∀ it : OfficeMenuItem, m.itemById headerId panelId itemId = some it →
      it.id = itemId ∧
      ∃ before after, m.allItems = before ++ it :: after ∧ ∀ x ∈ before, x.id ≠ itemId) := by
  have heq : m.itemById headerId panelId itemId
      = m.allItems.find? (fun it => it.id == itemId) := by
    rw [itemById_of_sentinel m headerId panelId itemId hsent, dynamicSearch_eq_find_allItems]
  refine ⟨heq, ?_⟩
  intro it hs
  rw [heq, List.find?_eq_some] at hs
  obtain ⟨hp, before, after, hsplit, hbefore⟩ := hs
  refine ⟨by simpa using hp, before, after, hsplit, ?_⟩
  intro x hx
  simpa using hbefore x hx

/-- Witness of C19 on `demoTree`, where id 100 is carried by an item of header 1
("New") and by an item of header 2 ("Bold"): the lookup returns "New". -/
theorem itemById_first_in_order_witness :
    demoTree.allItems.map (fun it => (it.id, it.text))
      = [(100, "New"), (101, "Open"), (200, "Paste"), (100, "Bold"), (210, "Find")] ∧
    demoTree.itemById (-1) 20 100 = demoTree.allItems.find? (fun it => it.id == 100) ∧
    demoTree.itemById (-1) 20 100 = some { id := 100, text := "New" } ∧
    demoTree.itemById 2 20 100 = some { id := 100, text := "Bold" } :=
  ⟨by decide, (itemById_first_in_order demoTree (-1) 20 100 (Or.inl rfl)).1, by decide,
    by decide⟩

/-- Claim C20.  The id -1 is accepted for a header: `insertHeader(pos, -1, text)`
on a menu without a header of id -1 returns a header with id -1, which
`headerById(-1)` then finds; and `sentinelTree` holds a header with id -1 while
`itemById(-1, 5, 7)` returns an item that lives under header 1 and in no panel
of the header with id -1, the lookup taking the whole-tree search. -/
theorem sentinel_header_id (m : OfficeMenu) (pos : Int) (text : String)
    (hno : ∀ h ∈ m.m_headers, h.id ≠ -1) :
    (∃ hd : OfficeMenuHeader, (m.insertHeader pos (-1) text).1 = some hd ∧ hd.id = -1 ∧
      (m.insertHeader pos (-1) text).2.headerById (-1) = some hd) ∧
    (∃ (t : OfficeMenu) (p itemId : Int) (it : OfficeMenuItem),
      p ≠ -1 ∧ (∃ h ∈ t.m_headers, h.id = -1) ∧
      t.itemById (-1) p itemId = some it ∧
      (∀ h ∈ t.m_headers, h.id = -1 → ∀ pn ∈ h.m_panels, it ∉ pn.m_items) ∧
      (∃ h ∈ t.m_headers, h.id ≠ -1 ∧ ∃ pn ∈ h.m_panels, it ∈ pn.m_items) ∧
      t.itemById (-1) p itemId = t.dynamicSearch itemId) := by
  constructor
  · rw [insertHeader_of_absent m pos (-1) text hno]
    refine ⟨OfficeMenuHeader.create (freshAddr m.m_headers) (-1) text, rfl, rfl, ?_⟩
    exact find_qlistInsert_absent m.m_headers _
      (OfficeMenuHeader.create (freshAddr m.m_headers) (-1) text) hno
  · exact ⟨sentinelTree, 5, 7, { id := 7, text := "Cut" }, by decide, by decide, by decide,
      by decide, by decide, by decide⟩

/-- Witness of C20: header -1 appended to the File/Home/View menu, and the
lookup on `sentinelTree`. -/
theorem sentinel_header_id_witness :
    (∀ h ∈ demoMenu.m_headers, h.id ≠ -1) ∧
    (∃ hd : OfficeMenuHeader, (demoMenu.insertHeader 3 (-1) "More").1 = some hd ∧ hd.id = -1 ∧
      (demoMenu.insertHeader 3 (-1) "More").2.headerById (-1) = some hd) ∧
    sentinelTree.itemById (-1) 5 7 = some { id := 7, text := "Cut" } ∧
    sentinelTree.itemById 1 5 7 = some { id := 7, text := "Cut" } ∧
    (sentinelTree.headerById (-1)).map (fun h => h.m_panels)
      = some [ { id := 5, m_items := [ { id := 7, text := "Copy" } ] } ] :=
  have hno : ∀ h ∈ demoMenu.m_headers, h.id ≠ -1 := by decide
  ⟨hno, (sentinel_header_id demoMenu 3 "More" hno).1, by decide, by decide, by decide⟩

/-- Claim C21.  `expand` of the null pointer does nothing: the menu state is
the one before the call, so the header sequence with every header's
expand/collapse sub-state, the height, `m_isExpanded` and `m_isPinned` are all
unchanged, and the headers that are expanded are the same as before. -/
theorem expand_null (m : OfficeMenu) :
    m.expand none = m ∧
    (m.expand none).m_headers = m.m_headers ∧
    (m.expand none).expandedHeaders = m.expandedHeaders ∧
    (m.expand none).height = m.height ∧
    (m.expand none).m_isExpanded = m.m_isExpanded ∧
    (m.expand none).m_isPinned = m.m_isPinned ∧
    (m.expand none).m_isTooltipShown = m.m_isTooltipShown := by
  have hsame : m.expand none = m := by
    unfold expand
    rfl
  rw [hsame]
  exact ⟨rfl, rfl, rfl, rfl, rfl, rfl, rfl⟩

/-- Check of C21 on the File/Home/View menu with the Home header expanded:
`expand` of the null pointer leaves Home expanded and the height at 120, where
`expand` of the File header would collapse Home. -/
theorem expand_null_witness :
    (demoMenu.expand (some 2)).expand none = demoMenu.expand (some 2) ∧
    ((demoMenu.expand (some 2)).expand none).m_headers.map (fun h => h.expanded)
      = [false, true, false] ∧
    ((demoMenu.expand (some 2)).expand none).height = 120 ∧
    ((demoMenu.expand (some 2)).expand (some 1)).m_headers.map (fun h => h.expanded)
      = [true, false, false] :=
  ⟨(expand_null (demoMenu.expand (some 2))).1, by decide, by decide, by decide⟩

end OfficeMenu

end QOffice
